import Mathlib

/-!
Verification of the maestro schema registry and daemon-control client.

The Python sources are embedded shallowly:
* `src/src/maestro/schema_registry.py` — value types, schema metrics, digest,
  JSON codec, compatibility, the registry store and the etcd failover proxy;
* `src/Communicator.py` — the daemon-control client error paths and the
  `prdcr_start` request builder;
* `src/maestro_util.py` — the interval-string parser `cvt_intrvl_str_to_us`.

Machine words are `Nat` with explicit `% 2^w`; fallible Python code returns
`Option`/`Except`; the byte strings fed to `hashlib.sha256` are `List Nat`
(each entry < 256).
-/

namespace Maestro

/-- Truncate to a 32-bit word, as Python's C-level uint32 arithmetic inside
the hash primitive. -/
def w32 (n : Nat) : Nat := n % 4294967296

/-- Rotate a 32-bit word right by `b` bits. -/
def rotr (b n : Nat) : Nat := w32 ((n >>> b) + ((n % 2 ^ b) <<< (32 - b)))

/-- Bitwise complement on 32-bit words. -/
def compl32 (n : Nat) : Nat := Nat.xor 4294967295 n

/-- SHA-256 small sigma 0. -/
def ssig0 (x : Nat) : Nat := Nat.xor (Nat.xor (rotr 7 x) (rotr 18 x)) (x >>> 3)

/-- SHA-256 small sigma 1. -/
def ssig1 (x : Nat) : Nat := Nat.xor (Nat.xor (rotr 17 x) (rotr 19 x)) (x >>> 10)

/-- SHA-256 big sigma 0. -/
def bsig0 (x : Nat) : Nat := Nat.xor (Nat.xor (rotr 2 x) (rotr 13 x)) (rotr 22 x)

/-- SHA-256 big sigma 1. -/
def bsig1 (x : Nat) : Nat := Nat.xor (Nat.xor (rotr 6 x) (rotr 11 x)) (rotr 25 x)

/-- SHA-256 choice function. -/
def chf (e f g : Nat) : Nat := Nat.xor (Nat.land e f) (Nat.land (compl32 e) g)

/-- SHA-256 majority function. -/
def majf (a b c : Nat) : Nat :=
  Nat.xor (Nat.xor (Nat.land a b) (Nat.land a c)) (Nat.land b c)

/-- The 64 SHA-256 round constants (FIPS 180-4 §4.2.2), in decimal. -/
def sha256K : List Nat :=
  [1116352408, 1899447441, 3049323471, 3921009573, 961987163, 1508970993,
   2453635748, 2870763221, 3624381080, 310598401, 607225278, 1426881987,
   1925078388, 2162078206, 2614888103, 3248222580, 3835390401, 4022224774,
   264347078, 604807628, 770255983, 1249150122, 1555081692, 1996064986,
   2554220882, 2821834349, 2952996808, 3210313671, 3336571891, 3584528711,
   113926993, 338241895, 666307205, 773529912, 1294757372, 1396182291,
   1695183700, 1986661051, 2177026350, 2456956037, 2730485921, 2820302411,
   3259730800, 3345764771, 3516065817, 3600352804, 4094571909, 275423344,
   430227734, 506948616, 659060556, 883997877, 958139571, 1322822218,
   1537002063, 1747873779, 1955562222, 2024104815, 2227730452, 2361852424,
   2428436474, 2756734187, 3204031479, 3329325298]

/-- The SHA-256 initial hash value (FIPS 180-4 §5.3.3), in decimal. -/
def sha256H0 : List Nat :=
  [1779033703, 3144134277, 1013904242, 2773480762,
   1359893119, 2600822924, 528734635, 1541459225]

/-- Big-endian 8-byte encoding of a natural number. -/
def be8 (n : Nat) : List Nat :=
  [n >>> 56 % 256, n >>> 48 % 256, n >>> 40 % 256, n >>> 32 % 256,
   n >>> 24 % 256, n >>> 16 % 256, n >>> 8 % 256, n % 256]

/-- Big-endian 4-byte encoding of a 32-bit word. -/
def be4 (n : Nat) : List Nat :=
  [n >>> 24 % 256, n >>> 16 % 256, n >>> 8 % 256, n % 256]

/-- SHA-256 padding: append `0x80`, zeros to 56 mod 64, and the bit length. -/
def padMsg (m : List Nat) : List Nat :=
  m ++ 128 :: List.replicate ((120 - (m.length + 1) % 64) % 64) 0
    ++ be8 (8 * m.length)

/-- Split a byte list into 64-byte blocks; the fuel is an upper bound on the
number of blocks and keeps the recursion structural. -/
def toBlocksAux : Nat → List Nat → List (List Nat)
  | _, [] => []
  | 0, _ :: _ => []
  | fuel + 1, x :: xs => (x :: xs).take 64 :: toBlocksAux fuel ((x :: xs).drop 64)

/-- Split a byte list into 64-byte blocks. -/
def toBlocks (l : List Nat) : List (List Nat) := toBlocksAux l.length l

/-- Group bytes into big-endian 32-bit words. -/
def toWords : List Nat → List Nat
  | a :: b :: c :: d :: rest =>
      ((a <<< 24) + (b <<< 16) + (c <<< 8) + d) :: toWords rest
  | _ => []

/-- Extend the message schedule; the accumulator holds the words produced so
far, most recent first. -/
def extendW : Nat → List Nat → List Nat
  | 0, acc => acc
  | k + 1, acc =>
      extendW k (w32 (ssig1 (acc.getD 1 0) + acc.getD 6 0
        + ssig0 (acc.getD 14 0) + acc.getD 15 0) :: acc)

/-- One SHA-256 compression round over the state `[a,b,c,d,e,f,g,h]`. -/
def sha256Round (st : List Nat) (wk : Nat × Nat) : List Nat :=
  match st with
  | [a, b, c, d, e, f, g, h] =>
      let t1 := w32 (h + bsig1 e + chf e f g + wk.2 + wk.1)
      let t2 := w32 (bsig0 a + majf a b c)
      [w32 (t1 + t2), a, b, c, w32 (d + t1), e, f, g]
  | _ => st

/-- Process one 64-byte block against the running hash. -/
def processBlock (h : List Nat) (block : List Nat) : List Nat :=
  let w := (extendW 48 (toWords block).reverse).reverse
  let st := (w.zip sha256K).foldl sha256Round h
  (h.zip st).map (fun p => w32 (p.1 + p.2))

/-- SHA-256 of a byte string, as its 32 digest bytes.  Models Python's
`hashlib.sha256(...).digest()` (FIPS 180-4). -/
def sha256 (m : List Nat) : List Nat :=
  (((toBlocks (padMsg m)).foldl processBlock sha256H0).map be4).flatten

/-- Lower-case hex digit for a nibble. -/
def hexChar (n : Nat) : Char :=
  match n with
  | 0 => '0' | 1 => '1' | 2 => '2' | 3 => '3' | 4 => '4' | 5 => '5'
  | 6 => '6' | 7 => '7' | 8 => '8' | 9 => '9' | 10 => 'a' | 11 => 'b'
  | 12 => 'c' | 13 => 'd' | 14 => 'e' | _ => 'f'

/-- Lower-case hex string of a byte list; Python's `bytes.hex()`. -/
def bytesHex (bs : List Nat) : String :=
  String.mk (bs.foldr (fun b acc => hexChar (b / 16 % 16) :: hexChar (b % 16) :: acc) [])

/-- UTF-8 encoding of one code point. -/
def utf8Char (c : Char) : List Nat :=
  let n := c.toNat
  if n < 128 then [n]
  else if n < 2048 then [192 + n / 64, 128 + n % 64]
  else if n < 65536 then [224 + n / 4096, 128 + n / 64 % 64, 128 + n % 64]
  else [240 + n / 262144, 128 + n / 4096 % 64, 128 + n / 64 % 64, 128 + n % 64]

/-- UTF-8 bytes of a string, as naturals; Python's `str.encode()`. -/
def utf8Bytes (s : String) : List Nat := (s.data.map utf8Char).flatten

/-- Little-endian 4-byte encoding; Python's `int.to_bytes(4, "little")`. -/
def le4 (n : Nat) : List Nat :=
  [n % 256, n / 256 % 256, n / 65536 % 256, n / 16777216 % 256]

/-- NIST test vector: SHA-256 of the empty message. -/
theorem sha256_nist_empty :
    sha256 [] =
      [0xe3, 0xb0, 0xc4, 0x42, 0x98, 0xfc, 0x1c, 0x14, 0x9a, 0xfb, 0xf4, 0xc8,
       0x99, 0x6f, 0xb9, 0x24, 0x27, 0xae, 0x41, 0xe4, 0x64, 0x9b, 0x93, 0x4c,
       0xa4, 0x95, 0x99, 0x1b, 0x78, 0x52, 0xb8, 0x55] := by decide

/-- NIST test vector: SHA-256 of the three bytes of the word abc. -/
theorem sha256_nist_abc :
    sha256 (utf8Bytes "abc") =
      [0xba, 0x78, 0x16, 0xbf, 0x8f, 0x01, 0xcf, 0xea, 0x41, 0x41, 0x40, 0xde,
       0x5d, 0xae, 0x22, 0x23, 0xb0, 0x03, 0x61, 0xa3, 0x96, 0x17, 0x7a, 0x9c,
       0xb4, 0x10, 0xff, 0x61, 0xf2, 0x00, 0x15, 0xad] := by decide

/-- The `ValueType` enumeration of `schema_registry.py` (lines 333-363). -/
inductive ValueType where
  | CHAR | U8 | S8 | U16 | S16 | U32 | S32 | U64 | S64 | F32 | D64
  | CHAR_ARRAY | U8_ARRAY | S8_ARRAY | U16_ARRAY | S16_ARRAY | U32_ARRAY
  | S32_ARRAY | U64_ARRAY | S64_ARRAY | F32_ARRAY | D64_ARRAY
  | LIST | LIST_ENTRY | RECORD_TYPE | RECORD_INST | RECORD_ARRAY | TIMESTAMP
deriving DecidableEq, BEq, Repr, Fintype

namespace ValueType

/-- The integer value of each enumeration member. -/
def value : ValueType → Nat
  | CHAR => 1 | U8 => 2 | S8 => 3 | U16 => 4 | S16 => 5 | U32 => 6 | S32 => 7
  | U64 => 8 | S64 => 9 | F32 => 10 | D64 => 11
  | CHAR_ARRAY => 12 | U8_ARRAY => 13 | S8_ARRAY => 14 | U16_ARRAY => 15
  | S16_ARRAY => 16 | U32_ARRAY => 17 | S32_ARRAY => 18 | U64_ARRAY => 19
  | S64_ARRAY => 20 | F32_ARRAY => 21 | D64_ARRAY => 22
  | LIST => 23 | LIST_ENTRY => 24 | RECORD_TYPE => 25 | RECORD_INST => 26
  | RECORD_ARRAY => 27 | TIMESTAMP => 28

end ValueType

/-- The string-keyed rows of `STR_TYPE_TBL`: catalog string to kind. -/
def strTypeTbl : String → Option ValueType
  | "int" => some .S32 | "long" => some .S64
  | "float" => some .F32 | "double" => some .D64
  | "char" => some .CHAR | "u8" => some .U8 | "s8" => some .S8
  | "u16" => some .U16 | "s16" => some .S16 | "u32" => some .U32
  | "s32" => some .S32 | "u64" => some .U64 | "s64" => some .S64
  | "f32" => some .F32 | "d64" => some .D64
  | "char[]" => some .CHAR_ARRAY | "u8[]" => some .U8_ARRAY
  | "s8[]" => some .S8_ARRAY | "u16[]" => some .U16_ARRAY
  | "s16[]" => some .S16_ARRAY | "u32[]" => some .U32_ARRAY
  | "s32[]" => some .S32_ARRAY | "u64[]" => some .U64_ARRAY
  | "s64[]" => some .S64_ARRAY | "f32[]" => some .F32_ARRAY
  | "d64[]" => some .D64_ARRAY
  | "record" => some .RECORD_TYPE | "record[]" => some .RECORD_ARRAY
  | "list" => some .LIST
  | _ => none

/-- `TYPE_STR_TBL`: kind to canonical catalog string; partial in the source
(`LIST_ENTRY`, `RECORD_INST` and `TIMESTAMP` raise `KeyError`). -/
def typeStrTbl : ValueType → Option String
  | .CHAR => some "char" | .U8 => some "u8" | .S8 => some "s8"
  | .U16 => some "u16" | .S16 => some "s16" | .U32 => some "u32"
  | .S32 => some "int" | .U64 => some "u64" | .S64 => some "s64"
  | .F32 => some "f32" | .D64 => some "d64"
  | .CHAR_ARRAY => some "char[]" | .U8_ARRAY => some "u8[]"
  | .S8_ARRAY => some "s8[]" | .U16_ARRAY => some "u16[]"
  | .S16_ARRAY => some "s16[]" | .U32_ARRAY => some "u32[]"
  | .S32_ARRAY => some "int[]" | .U64_ARRAY => some "u64[]"
  | .S64_ARRAY => some "long[]" | .F32_ARRAY => some "float[]"
  | .D64_ARRAY => some "double[]"
  | .LIST => some "list" | .RECORD_TYPE => some "record"
  | .RECORD_ARRAY => some "record[]"
  | _ => none

/-- The string-keyed rows of `ARRAY_TBL`: item string to array kind. -/
def arrayTblStr : String → Option ValueType
  | "int" => some .S32_ARRAY | "long" => some .S64_ARRAY
  | "float" => some .F32_ARRAY | "double" => some .D64_ARRAY
  | "char" => some .CHAR_ARRAY | "u8" => some .U8_ARRAY
  | "s8" => some .S8_ARRAY | "u16" => some .U16_ARRAY
  | "s16" => some .S16_ARRAY | "u32" => some .U32_ARRAY
  | "s32" => some .S32_ARRAY | "u64" => some .U64_ARRAY
  | "s64" => some .S64_ARRAY | "f32" => some .F32_ARRAY
  | "d64" => some .D64_ARRAY
  | "char[]" => some .CHAR_ARRAY | "u8[]" => some .U8_ARRAY
  | "s8[]" => some .S8_ARRAY | "u16[]" => some .U16_ARRAY
  | "s16[]" => some .S16_ARRAY | "u32[]" => some .U32_ARRAY
  | "s32[]" => some .S32_ARRAY | "u64[]" => some .U64_ARRAY
  | "s64[]" => some .S64_ARRAY | "f32[]" => some .F32_ARRAY
  | "d64[]" => some .D64_ARRAY
  | "record" => some .RECORD_ARRAY | "record[]" => some .RECORD_ARRAY
  | _ => none

/-- The kind-keyed rows of `ARRAY_TBL`: item kind to array kind; `LIST`,
`LIST_ENTRY`, `RECORD_INST` and `TIMESTAMP` are absent in the source. -/
def arrayTblVt : ValueType → Option ValueType
  | .CHAR => some .CHAR_ARRAY | .U8 => some .U8_ARRAY | .S8 => some .S8_ARRAY
  | .U16 => some .U16_ARRAY | .S16 => some .S16_ARRAY
  | .U32 => some .U32_ARRAY | .S32 => some .S32_ARRAY
  | .U64 => some .U64_ARRAY | .S64 => some .S64_ARRAY
  | .F32 => some .F32_ARRAY | .D64 => some .D64_ARRAY
  | .RECORD_TYPE => some .RECORD_ARRAY
  | .CHAR_ARRAY => some .CHAR_ARRAY | .U8_ARRAY => some .U8_ARRAY
  | .S8_ARRAY => some .S8_ARRAY | .U16_ARRAY => some .U16_ARRAY
  | .S16_ARRAY => some .S16_ARRAY | .U32_ARRAY => some .U32_ARRAY
  | .S32_ARRAY => some .S32_ARRAY | .U64_ARRAY => some .U64_ARRAY
  | .S64_ARRAY => some .S64_ARRAY | .F32_ARRAY => some .F32_ARRAY
  | .D64_ARRAY => some .D64_ARRAY
  | .RECORD_ARRAY => some .RECORD_ARRAY
  | _ => none

/-- The string-keyed rows of `ITEM_TYPE_TBL`: item string to item kind. -/
def itemTypeTblStr : String → Option ValueType
  | "int" => some .S32 | "long" => some .S64
  | "float" => some .F32 | "double" => some .D64
  | "char" => some .CHAR | "u8" => some .U8 | "s8" => some .S8
  | "u16" => some .U16 | "s16" => some .S16 | "u32" => some .U32
  | "s32" => some .S32 | "u64" => some .U64 | "s64" => some .S64
  | "f32" => some .F32 | "d64" => some .D64
  | "char[]" => some .CHAR | "u8[]" => some .U8 | "s8[]" => some .S8
  | "u16[]" => some .U16 | "s16[]" => some .S16 | "u32[]" => some .U32
  | "s32[]" => some .S32 | "u64[]" => some .U64 | "s64[]" => some .S64
  | "f32[]" => some .F32 | "d64[]" => some .D64
  | "record" => some .RECORD_TYPE | "record[]" => some .RECORD_TYPE
  | _ => none

/-- One metric field of a schema: the `SchemaMetric` class hierarchy as a sum
type.  `prim` is `SchemaMetricPrimitive`, `arr` is `SchemaMetricArray` (which
stores the resolved item kind), `lst` is `SchemaMetricList`, `record` is
`SchemaMetricRecord` and `recarr` is `SchemaMetricRecordArray`. -/
inductive Metric where
  | prim (name : String) (type : ValueType) (is_meta : Bool)
      (units : Option String) (doc : Option String)
  | arr (name : String) (item : ValueType) (len : Int) (is_meta : Bool)
      (units : Option String) (doc : Option String)
  | lst (name : String) (heap_sz : Int) (is_meta : Bool)
      (units : Option String) (doc : Option String)
  | record (name : String) (metrics : List Metric) (is_meta : Bool)
      (units : Option String) (doc : Option String)
  | recarr (name : String) (record_type : String) (len : Int) (is_meta : Bool)
      (units : Option String) (doc : Option String)

namespace Metric

/-- The `name` attribute common to every metric. -/
def name : Metric → String
  | prim n _ _ _ _ => n
  | arr n _ _ _ _ _ => n
  | lst n _ _ _ _ => n
  | record n _ _ _ _ => n
  | recarr n _ _ _ _ _ => n

/-- The `units` attribute common to every metric. -/
def units : Metric → Option String
  | prim _ _ _ u _ => u
  | arr _ _ _ _ u _ => u
  | lst _ _ _ u _ => u
  | record _ _ _ u _ => u
  | recarr _ _ _ _ u _ => u

/-- The `is_meta` attribute common to every metric. -/
def is_meta : Metric → Bool
  | prim _ _ m _ _ => m
  | arr _ _ _ m _ _ => m
  | lst _ _ m _ _ => m
  | record _ _ m _ _ => m
  | recarr _ _ _ m _ _ => m

/-- The `doc` attribute common to every metric. -/
def doc : Metric → Option String
  | prim _ _ _ _ d => d
  | arr _ _ _ _ _ d => d
  | lst _ _ _ _ d => d
  | record _ _ _ _ d => d
  | recarr _ _ _ _ _ d => d

/-- The stored `type` attribute.  The Python constructors set it to the given
kind for primitives, to `ARRAY_TBL[item]` for arrays (asserting the lookup
succeeded, so the default branch is unreachable for constructible fields), to
`LIST` for lists, `RECORD_TYPE` for records and `RECORD_ARRAY` for record
arrays. -/
def typeOf : Metric → ValueType
  | prim _ t _ _ _ => t
  | arr _ item _ _ _ _ => (arrayTblVt item).getD .TIMESTAMP
  | lst _ _ _ _ _ => .LIST
  | record _ _ _ _ _ => .RECORD_TYPE
  | recarr _ _ _ _ _ _ => .RECORD_ARRAY

/-- The `item_type` attribute, present only on array-like metrics (record
arrays store `ITEM_TYPE_TBL["record"] = RECORD_TYPE`). -/
def itemOf : Metric → Option ValueType
  | arr _ item _ _ _ _ => some item
  | recarr _ _ _ _ _ _ => some .RECORD_TYPE
  | _ => none

/-- The `len` attribute, present only on array-like metrics. -/
def lenOf : Metric → Option Int
  | arr _ _ l _ _ _ => some l
  | recarr _ _ l _ _ _ => some l
  | _ => none

end Metric

/-- A `Schema`: name, ordered metric list, optional doc. -/
structure Schema where
  name : String
  metrics : List Metric
  doc : Option String

mutual

/-- `SchemaMetric.update_digest` (and the `SchemaMetricRecord` override): feed
the field's contribution to the running hash `h`, modelled as the byte list
accumulated so far.  A record first recurses into its members, then appends
its own name bytes and 4-byte little-endian kind value; every other field
appends its name bytes and kind value directly. -/
def Metric.update_digest : Metric → List Nat → List Nat
  | .record n ms _ _ _, h =>
      updList ms h ++ utf8Bytes n ++ le4 ValueType.RECORD_TYPE.value
  | m, h => h ++ utf8Bytes m.name ++ le4 m.typeOf.value

/-- Feed a list of metrics to the running hash in order. -/
def updList : List Metric → List Nat → List Nat
  | [], h => h
  | m :: ms, h => updList ms (Metric.update_digest m h)

end

/-- The byte string a schema feeds to `hashlib.sha256` in `Schema.digest`. -/
def Schema.digestInput (s : Schema) : List Nat := updList s.metrics []

/-- `Schema.digest`: SHA-256 over the fields' contributions. -/
def Schema.digest (s : Schema) : List Nat := sha256 s.digestInput

/-- `Schema.id`: `name + "-" + digest.hex()`. -/
def Schema.id (s : Schema) : String := s.name ++ "-" ++ bytesHex s.digest

mutual

/-- The digest contribution of one field as the specification words it: a
primitive, array, list or record-array field contributes its UTF-8 name bytes
followed by its 4-byte little-endian kind code; a record contributes its
nested fields' contributions first and then its own name bytes and kind
code. -/
def specContribution : Metric → List Nat
  | .record n ms _ _ _ =>
      specContributionList ms ++ utf8Bytes n ++ le4 ValueType.RECORD_TYPE.value
  | m => utf8Bytes m.name ++ le4 m.typeOf.value

/-- Concatenation, in field order, of each field's contribution. -/
def specContributionList : List Metric → List Nat
  | [] => []
  | m :: ms => specContribution m ++ specContributionList ms

end

/-- The name-and-kind skeleton of a field: exactly the data the digest
depends on (array length, list heap size, units, `is_meta`, `doc` and the
record-array's referenced type name are all erased). -/
inductive Skel where
  | node (name : String) (kind : ValueType) (children : List Skel)

mutual

/-- Erase a metric to its digest-relevant skeleton. -/
def Metric.skeleton : Metric → Skel
  | .record n ms _ _ _ => .node n .RECORD_TYPE (skeletonList ms)
  | m => .node m.name m.typeOf []

/-- Erase a metric list to its skeletons. -/
def skeletonList : List Metric → List Skel
  | [] => []
  | m :: ms => Metric.skeleton m :: skeletonList ms

end

mutual

/-- The digest contribution determined by a skeleton alone. -/
def skelContribution : Skel → List Nat
  | .node n k ch => skelContributionList ch ++ utf8Bytes n ++ le4 k.value

/-- Contributions of a skeleton list, concatenated in order. -/
def skelContributionList : List Skel → List Nat
  | [] => []
  | t :: ts => skelContribution t ++ skelContributionList ts

end

mutual

/-- Threading the hash accumulator through `update_digest` appends exactly
the field's specification contribution. -/
theorem Metric.update_digest_eq :
    ∀ (m : Metric) (h : List Nat), m.update_digest h = h ++ specContribution m
  | .prim _ _ _ _ _, _ => by simp [Metric.update_digest, specContribution]
  | .arr _ _ _ _ _ _, _ => by simp [Metric.update_digest, specContribution]
  | .lst _ _ _ _ _, _ => by simp [Metric.update_digest, specContribution]
  | .recarr _ _ _ _ _ _, _ => by simp [Metric.update_digest, specContribution]
  | .record n ms im u d, h => by
      simp [Metric.update_digest, specContribution, updList_eq ms h,
        List.append_assoc]

/-- Threading the hash accumulator through a field list appends the
concatenation of the fields' contributions. -/
theorem updList_eq :
    ∀ (ms : List Metric) (h : List Nat),
      updList ms h = h ++ specContributionList ms
  | [], _ => by simp [updList, specContributionList]
  | m :: ms, h => by
      simp [updList, specContributionList, Metric.update_digest_eq m h,
        updList_eq ms, List.append_assoc]

end

mutual

/-- A field's contribution is a function of its skeleton. -/
theorem specContribution_skeleton :
    ∀ m : Metric, specContribution m = skelContribution m.skeleton
  | .prim _ _ _ _ _ => by
      simp [specContribution, Metric.skeleton, skelContribution,
        skelContributionList, Metric.name, Metric.typeOf]
  | .arr _ _ _ _ _ _ => by
      simp [specContribution, Metric.skeleton, skelContribution,
        skelContributionList, Metric.name, Metric.typeOf]
  | .lst _ _ _ _ _ => by
      simp [specContribution, Metric.skeleton, skelContribution,
        skelContributionList, Metric.name, Metric.typeOf]
  | .recarr _ _ _ _ _ _ => by
      simp [specContribution, Metric.skeleton, skelContribution,
        skelContributionList, Metric.name, Metric.typeOf]
  | .record n ms im u d => by
      simp [specContribution, Metric.skeleton, skelContribution,
        specContributionList_skeleton ms]

/-- A field list's contribution is a function of its skeletons. -/
theorem specContributionList_skeleton :
    ∀ ms : List Metric,
      specContributionList ms = skelContributionList (skeletonList ms)
  | [] => by simp [specContributionList, skeletonList, skelContributionList]
  | m :: ms => by
      simp [specContributionList, skeletonList, skelContributionList,
        specContribution_skeleton m, specContributionList_skeleton ms]

end

/-- C1.  For every `Schema`, the digest equals SHA-256 of the concatenation,
in field order, of each field's contribution: a primitive, array, list or
record-array field contributes its UTF-8 name bytes followed by its 4-byte
little-endian kind code, and a record field contributes its nested fields'
contributions first and then its own name bytes and kind code.  Array length,
list heap size, units, `is_meta` and `doc` contribute nothing (they are all
erased by `Metric.skeleton`), so two schemas whose field sequences agree on
names and kinds — i.e. have equal skeletons — have equal digests. -/
theorem c1_digest_is_sha256_of_contributions :
    (∀ s : Schema, s.digest = sha256 (specContributionList s.metrics)) ∧
    (∀ s1 s2 : Schema, skeletonList s1.metrics = skeletonList s2.metrics →
      s1.digest = s2.digest) := by
  have key : ∀ s : Schema, s.digest = sha256 (specContributionList s.metrics) := by
    intro s
    simp [Schema.digest, Schema.digestInput, updList_eq]
  refine ⟨key, fun s1 s2 hskel => ?_⟩
  rw [key s1, key s2, specContributionList_skeleton, specContributionList_skeleton,
    hskel]

/-- A two-field schema used as a digest example: a `u64` scalar and a
`u64[16]` array with units. -/
def exSchemaA : Schema :=
  ⟨"meminfo",
   [Metric.prim "MemTotal" .U64 false (some "kB") none,
    Metric.arr "vals" .U64 16 false (some "kB") (some "sixteen values")],
   some "doc A"⟩

/-- The same field sequence as `exSchemaA` with a different array length,
different units, different `is_meta` and different docs. -/
def exSchemaB : Schema :=
  ⟨"meminfo",
   [Metric.prim "MemTotal" .U64 true none (some "total memory"),
    Metric.arr "vals" .U64 999 true (some "MB") none],
   none⟩

/-- Witness for C1 at concrete schemas: the skeleton-agreement hypothesis is
discharged by evaluation on `exSchemaA`/`exSchemaB`. -/
theorem c1_witness :
    exSchemaA.digest = sha256 (specContributionList exSchemaA.metrics) ∧
    exSchemaA.digest = exSchemaB.digest :=
  ⟨c1_digest_is_sha256_of_contributions.1 exSchemaA,
   c1_digest_is_sha256_of_contributions.2 exSchemaA exSchemaB rfl⟩

/-- A JSON value.  Numbers are restricted to the integers the schema JSON
actually carries (`len`, `heap_sz`); objects are association lists with the
keys unique in every document this development builds. -/
inductive JVal where
  | jnull
  | jbool (b : Bool)
  | jint (n : Int)
  | jstr (s : String)
  | jarr (elems : List JVal)
  | jobj (fields : List (String × JVal))

/-- Python `dict` lookup returning `None` on a missing key (`dict.get`);
`obj[k]` with a missing key is the `none` case propagated as an error. -/
def jGet : List (String × JVal) → String → Option JVal
  | [], _ => none
  | (k, v) :: rest, key => if k = key then some v else jGet rest key

/-- Python truthiness of a JSON value (`None`, `False`, `0`, empty string,
empty list and empty object are falsy). -/
def jTruthy : JVal → Bool
  | .jnull => false
  | .jbool b => b
  | .jint n => decide (n ≠ 0)
  | .jstr s => decide (s ≠ "")
  | .jarr l => !l.isEmpty
  | .jobj o => !o.isEmpty

/-- Emission of an optional string attribute (`None` becomes JSON null). -/
def joptStr : Option String → JVal
  | none => .jnull
  | some s => .jstr s

mutual

/-- `as_dict` of each metric class, with the keys in source order.  The
`typeStrTbl` default is unreachable for fields whose kinds the table covers
(on others Python raises `KeyError`). -/
def Metric.as_dict : Metric → JVal
  | .prim n t im u d =>
      .jobj [("name", .jstr n), ("type", .jstr ((typeStrTbl t).getD "")),
             ("is_meta", .jbool im), ("units", joptStr u), ("doc", joptStr d)]
  | .arr n item len im u d =>
      .jobj [("name", .jstr n), ("type", .jstr "array"),
             ("is_meta", .jbool im), ("units", joptStr u), ("doc", joptStr d),
             ("items", .jstr ((typeStrTbl item).getD "")), ("len", .jint len)]
  | .lst n h im u d =>
      .jobj [("name", .jstr n), ("type", .jstr "list"),
             ("is_meta", .jbool im), ("units", joptStr u), ("doc", joptStr d),
             ("heap_sz", .jint h)]
  | .record n ms im u d =>
      .jobj [("name", .jstr n), ("type", .jstr "record"),
             ("is_meta", .jbool im), ("units", joptStr u), ("doc", joptStr d),
             ("fields", .jarr (asDictList ms))]
  | .recarr n rt len im u d =>
      .jobj [("name", .jstr n), ("type", .jstr "array"),
             ("is_meta", .jbool im), ("units", joptStr u), ("doc", joptStr d),
             ("items", .jstr "record"), ("record_type", .jstr rt),
             ("len", .jint len)]

/-- `as_dict` of a field list, in order. -/
def asDictList : List Metric → List JVal
  | [] => []
  | m :: ms => Metric.as_dict m :: asDictList ms

end

/-- `Schema.as_dict`: the whole document wrapped under the `schema` key.
`as_json` is `json.dumps` of this object; since `json.loads` inverts
`json.dumps` on such documents, the text stage is elided and both
serialization claims are settled at the JSON-value level. -/
def Schema.as_dict (s : Schema) : JVal :=
  .jobj [("schema",
    .jobj [("name", .jstr s.name), ("type", .jstr "record"),
           ("doc", joptStr s.doc), ("fields", .jarr (asDictList s.metrics))])]

/-- Read a field that the model requires to be a JSON string.  (Python would
also store a non-string value here; no claim exercises that path.) -/
def reqStr (o : List (String × JVal)) (k : String) : Option String :=
  match jGet o k with
  | some (.jstr s) => some s
  | _ => none

/-- Read an optional string attribute (`doc`, `units`): absent or null means
`None`. -/
def optStrGet (o : List (String × JVal)) (k : String) : Option String :=
  match jGet o k with
  | some (.jstr s) => some s
  | _ => none

/-- Read `is_meta`: `bool(obj.get("is_meta"))`, i.e. the truthiness of the
value with a missing key falsy. -/
def boolGet (o : List (String × JVal)) (k : String) : Bool :=
  match jGet o k with
  | some v => jTruthy v
  | none => false

/-- Read an integer attribute with a default (`obj.get(k, d)`); the model
requires a JSON integer when the key is present. -/
def intGetD (o : List (String × JVal)) (k : String) (d : Int) : Option Int :=
  match jGet o k with
  | none => some d
  | some (.jint n) => some n
  | some _ => none

/-- `ValueType(n)`: the enum member with integer value `n`, if any. -/
def ValueType.fromValue : Int → Option ValueType
  | 1 => some .CHAR | 2 => some .U8 | 3 => some .S8 | 4 => some .U16
  | 5 => some .S16 | 6 => some .U32 | 7 => some .S32 | 8 => some .U64
  | 9 => some .S64 | 10 => some .F32 | 11 => some .D64
  | 12 => some .CHAR_ARRAY | 13 => some .U8_ARRAY | 14 => some .S8_ARRAY
  | 15 => some .U16_ARRAY | 16 => some .S16_ARRAY | 17 => some .U32_ARRAY
  | 18 => some .S32_ARRAY | 19 => some .U64_ARRAY | 20 => some .S64_ARRAY
  | 21 => some .F32_ARRAY | 22 => some .D64_ARRAY
  | 23 => some .LIST | 24 => some .LIST_ENTRY | 25 => some .RECORD_TYPE
  | 26 => some .RECORD_INST | 27 => some .RECORD_ARRAY | 28 => some .TIMESTAMP
  | _ => none

/-- `ValueType.from_obj` applied to a JSON `type` attribute: strings go
through `STR_TYPE_TBL`, integers through the enum-by-value constructor;
anything else raises. -/
def valueTypeFromObj : JVal → Option ValueType
  | .jstr s => strTypeTbl s
  | .jint n => ValueType.fromValue n
  | _ => none

/-- Membership test in a string list (`in` on a Python set of names). -/
def strMem : List String → String → Bool
  | [], _ => false
  | s :: rest, x => decide (s = x) || strMem rest x

/-- `SchemaMetricPrimitive.from_dict`. -/
def parsePrimitive (o : List (String × JVal)) : Option Metric :=
  match reqStr o "name" with
  | none => none
  | some n =>
      match jGet o "type" with
      | none => none
      | some tv =>
          match valueTypeFromObj tv with
          | none => none
          | some vt =>
              some (.prim n vt (boolGet o "is_meta") (optStrGet o "units")
                (optStrGet o "doc"))

/-- `SchemaMetricList.from_dict`: note that `units`, `is_meta` and `doc` are
never read — the constructor is called as `cls(name, heap_sz)`. -/
def SchemaMetricList.from_dict (j : JVal) : Option Metric :=
  match j with
  | .jobj o =>
      match reqStr o "name" with
      | none => none
      | some n =>
          match jGet o "type" with
          | some (.jstr "list") =>
              match intGetD o "heap_sz" (-1) with
              | none => none
              | some h => some (.lst n h false none none)
          | _ => none
  | _ => none

/-- `SchemaMetricRecordArray.from_dict`. -/
def parseRecordArray (o : List (String × JVal)) : Option Metric :=
  match reqStr o "name" with
  | none => none
  | some n =>
      match jGet o "type" with
      | some (.jstr "array") =>
          match jGet o "items" with
          | some (.jstr items) =>
              if arrayTblStr items = some .RECORD_ARRAY then
                match reqStr o "record_type" with
                | none => none
                | some rt =>
                    match intGetD o "len" (-1) with
                    | none => none
                    | some len =>
                        some (.recarr n rt len (boolGet o "is_meta")
                          (optStrGet o "units") (optStrGet o "doc"))
              else none
          | _ => none
      | _ => none

/-- `SchemaMetricArray.from_dict`: dispatch record items to the record-array
parser; unknown or non-string items fail the constructor's table lookup. -/
def parseArrayLike (o : List (String × JVal)) : Option Metric :=
  match reqStr o "name" with
  | none => none
  | some n =>
      match jGet o "type" with
      | some (.jstr "array") =>
          match jGet o "items" with
          | some (.jstr items) =>
              if arrayTblStr items = some .RECORD_ARRAY then parseRecordArray o
              else
                match intGetD o "len" (-1) with
                | none => none
                | some len =>
                    match itemTypeTblStr items, arrayTblStr items with
                    | some item, some _ =>
                        some (.arr n item len (boolGet o "is_meta")
                          (optStrGet o "units") (optStrGet o "doc"))
                    | _, _ => none
          | _ => none
      | _ => none

mutual

/-- `SchemaMetric.from_dict` dispatch, with a structural fuel so that the
parser evaluates in the kernel; every recursive edge consumes one unit.  A
missing or non-string `type` attribute falls to the primitive parser exactly
as the Python string comparisons do. -/
def parseMetricF : Nat → JVal → Option Metric
  | 0, _ => none
  | f + 1, .jobj o =>
      match jGet o "type" with
      | some (.jstr t) =>
          if t = "array" then parseArrayLike o
          else if t = "list" then SchemaMetricList.from_dict (.jobj o)
          else if t = "record" then parseRecordF f o
          else parsePrimitive o
      | _ => parsePrimitive o
  | _ + 1, _ => none

/-- `SchemaMetricRecord.from_dict`: check the `record` type, a truthy name
and a truthy field list, then parse each field with duplicate-name
detection. -/
def parseRecordF : Nat → List (String × JVal) → Option Metric
  | 0, _ => none
  | f + 1, o =>
      match jGet o "type" with
      | some (.jstr "record") =>
          match jGet o "name" with
          | some (.jstr n) =>
              if n = "" then none
              else
                match jGet o "fields" with
                | some (.jarr (ff :: fs)) =>
                    match parseFieldsF f (ff :: fs) [] with
                    | none => none
                    | some ms => some (.record n ms true none none)
                | _ => none
          | _ => none
      | _ => none

/-- The field loop of `SchemaMetricRecord.from_dict`: each field must carry a
truthy name and type, the name must be fresh, and the field parses through
the dispatch. -/
def parseFieldsF : Nat → List JVal → List String → Option (List Metric)
  | 0, _, _ => none
  | _ + 1, [], _ => some []
  | f + 1, fobj :: rest, seen =>
      match fobj with
      | .jobj fo =>
          match jGet fo "name", jGet fo "type" with
          | some fn, some ft =>
              if jTruthy fn && jTruthy ft then
                match fn with
                | .jstr n =>
                    if strMem seen n then none
                    else
                      match parseMetricF f fobj with
                      | none => none
                      | some m =>
                          match parseFieldsF f rest (n :: seen) with
                          | none => none
                          | some ms => some (m :: ms)
                | _ => none
              else none
          | _, _ => none
      | _ => none

end

mutual

/-- Node count of a JSON value; used as parser fuel. -/
def jvalSize : JVal → Nat
  | .jarr l => jvalListSize l + 1
  | .jobj o => jvalObjSize o + 1
  | _ => 1

/-- Node count of a JSON array body. -/
def jvalListSize : List JVal → Nat
  | [] => 0
  | v :: vs => jvalSize v + jvalListSize vs + 1

/-- Node count of a JSON object body. -/
def jvalObjSize : List (String × JVal) → Nat
  | [] => 0
  | (_, v) :: rest => jvalSize v + jvalObjSize rest + 1

end

/-- `SchemaMetric.from_dict` with the canonical fuel. -/
def SchemaMetric.from_dict (j : JVal) : Option Metric :=
  parseMetricF (jvalSize j) j

/-- `Schema.from_dict` (and `Schema.from_json` modulo text parsing): unwrap
the optional `schema` key, accept only the `record` top-level type, parse the
document as a `SchemaMetricRecord` and keep its name, fields and doc. -/
def Schema.from_dict (j : JVal) : Option Schema :=
  match j with
  | .jobj o =>
      match (jGet o "schema").getD (.jobj o) with
      | .jobj so =>
          match jGet so "type" with
          | some (.jstr "record") =>
              match parseRecordF (jvalSize (.jobj so)) so with
              | some (.record n ms _ _ d) => some ⟨n, ms, d⟩
              | _ => none
          | _ => none
      | _ => none
  | _ => none

/-- The eleven scalar kinds a primitive field (or an array item) can carry. -/
def scalarKind : ValueType → Bool
  | .CHAR | .U8 | .S8 | .U16 | .S16 | .U32 | .S32 | .U64 | .S64 | .F32
  | .D64 => true
  | _ => false

mutual

/-- `SchemaMetric.compatible` and its overrides.  Every branch mirrors the
Python conjunction of attribute comparisons; attribute reads on `other` go
through the total accessors, which agree with Python wherever the Python code
does not raise `AttributeError` (only reachable on fields no constructor can
build). -/
def Metric.compatible : Metric → Metric → Bool
  | .prim n t im u _, other =>
      decide (n = other.name) && decide (t = other.typeOf)
        && decide (u = other.units) && decide (im = other.is_meta)
  | .arr n item len im u _, other =>
      decide (n = other.name)
        && decide ((arrayTblVt item).getD .TIMESTAMP = other.typeOf)
        && decide (some item = other.itemOf) && decide (some len = other.lenOf)
        && decide (u = other.units) && decide (im = other.is_meta)
  | .lst n _ im u _, other =>
      decide (n = other.name) && decide (ValueType.LIST = other.typeOf)
        && decide (u = other.units) && decide (im = other.is_meta)
  | .record n ms im u _, other =>
      match other with
      | .record n2 ms2 im2 u2 _ =>
          compatList ms ms2 && decide (n = n2)
            && decide (u = u2) && decide (im = im2)
      | _ => false
  | .recarr n _ len im u _, other =>
      decide (n = other.name) && decide (ValueType.RECORD_ARRAY = other.typeOf)
        && decide (some ValueType.RECORD_TYPE = other.itemOf)
        && decide (some len = other.lenOf)
        && decide (u = other.units) && decide (im = other.is_meta)

/-- The record loop: equal length and pairwise compatibility. -/
def compatList : List Metric → List Metric → Bool
  | [], [] => true
  | a :: as, b :: bs => Metric.compatible a b && compatList as bs
  | _, _ => false

end

/-- `Schema.compatible`: equal field count and pairwise field compatibility;
nothing else is compared at the schema level. -/
def Schema.compatible (s1 s2 : Schema) : Bool :=
  compatList s1.metrics s2.metrics

mutual

/-- Field compatibility as the specification words it: same name, same kind,
same units, same `is_meta`; arrays additionally require equal length and item
kind; records require recursive field compatibility; lists ignore heap size;
fields of different kinds are never compatible. -/
def specFieldCompat : Metric → Metric → Bool
  | .prim n t im u _, .prim n2 t2 im2 u2 _ =>
      decide (n = n2) && decide (t = t2) && decide (u = u2) && decide (im = im2)
  | .arr n it len im u _, .arr n2 it2 len2 im2 u2 _ =>
      decide (n = n2) && decide (it = it2) && decide (len = len2)
        && decide (u = u2) && decide (im = im2)
  | .lst n _ im u _, .lst n2 _ im2 u2 _ =>
      decide (n = n2) && decide (u = u2) && decide (im = im2)
  | .record n ms im u _, .record n2 ms2 im2 u2 _ =>
      decide (n = n2) && specFieldCompatList ms ms2
        && decide (u = u2) && decide (im = im2)
  | .recarr n _ len im u _, .recarr n2 _ len2 im2 u2 _ =>
      decide (n = n2) && decide (len = len2)
        && decide (u = u2) && decide (im = im2)
  | _, _ => false

/-- Pairwise field compatibility of two equally long lists. -/
def specFieldCompatList : List Metric → List Metric → Bool
  | [], [] => true
  | a :: as, b :: bs => specFieldCompat a b && specFieldCompatList as bs
  | _, _ => false

end

mutual

/-- Kind sanity of a field as the Python constructors leave it: primitives
carry scalar kinds, arrays carry scalar item kinds.  Every field built by
`from_dict` or from a collector template satisfies this. -/
def wfKinds : Metric → Bool
  | .prim _ t _ _ _ => scalarKind t
  | .arr _ it _ _ _ _ => scalarKind it
  | .lst _ _ _ _ _ => true
  | .record _ ms _ _ _ => wfKindsList ms
  | .recarr _ _ _ _ _ _ => true

/-- Kind sanity of a field list. -/
def wfKindsList : List Metric → Bool
  | [] => true
  | m :: ms => wfKinds m && wfKindsList ms

end

/-- No repeated entry in a string list. -/
def nodupStr : List String → Bool
  | [] => true
  | s :: rest => !strMem rest s && nodupStr rest

mutual

/-- Well-formedness of a field for the serialization round trip: sane kinds,
a non-empty name, and — for records — a non-empty field list with distinct
names, recursively. -/
def wfMetric : Metric → Bool
  | .prim n t _ _ _ => decide (n ≠ "") && scalarKind t
  | .arr n it _ _ _ _ => decide (n ≠ "") && scalarKind it
  | .lst n _ _ _ _ => decide (n ≠ "")
  | .record n ms _ _ _ =>
      decide (n ≠ "") && !ms.isEmpty && nodupStr (ms.map Metric.name)
        && wfMetricList ms
  | .recarr n _ _ _ _ _ => decide (n ≠ "")

/-- Well-formedness of a field list. -/
def wfMetricList : List Metric → Bool
  | [] => true
  | m :: ms => wfMetric m && wfMetricList ms

end

/-- Well-formedness of a whole schema for the serialization round trip. -/
def wfSchema (s : Schema) : Bool :=
  decide (s.name ≠ "") && !s.metrics.isEmpty
    && nodupStr (s.metrics.map Metric.name) && wfMetricList s.metrics

mutual

/-- What one load round trip does to a field: list fields lose `units`,
`is_meta` and `doc`; record fields lose `units` and `doc` and get the
constructor default `is_meta = True`; all other fields are unchanged. -/
def Metric.normalize : Metric → Metric
  | .prim n t im u d => .prim n t im u d
  | .arr n it len im u d => .arr n it len im u d
  | .lst n h _ _ _ => .lst n h false none none
  | .record n ms _ _ _ => .record n (normalizeList ms) true none none
  | .recarr n rt len im u d => .recarr n rt len im u d

/-- Round-trip normalization of a field list. -/
def normalizeList : List Metric → List Metric
  | [] => []
  | m :: ms => Metric.normalize m :: normalizeList ms

end

/-- C10.  `SchemaMetricList.from_dict` ignores `units`, `is_meta` and `doc`:
whatever JSON object it accepts parses to a list field with `units = None`,
`is_meta = False` and `doc = None`; consequently, for any list field with
non-default units or `is_meta`, the parse of its own `as_dict` is a different
field that the original is not compatible with, while the digest contribution
is unchanged. -/
theorem c10_list_from_dict_ignores_units_meta_doc :
    (∀ (j : JVal) (m : Metric), SchemaMetricList.from_dict j = some m →
      m.units = none ∧ m.is_meta = false ∧ m.doc = none) ∧
    (∀ (n : String) (h : Int) (im : Bool) (u d : Option String),
      u ≠ none ∨ im = true →
      SchemaMetricList.from_dict (Metric.as_dict (.lst n h im u d))
          = some (.lst n h false none none) ∧
      Metric.lst n h false none none ≠ Metric.lst n h im u d ∧
      Metric.compatible (.lst n h im u d) (.lst n h false none none) = false ∧
      Metric.update_digest (.lst n h im u d)
          = Metric.update_digest (.lst n h false none none)) := by
  constructor
  · intro j m hm
    cases j with
    | jobj o =>
        simp only [SchemaMetricList.from_dict] at hm
        split at hm
        · cases hm
        · split at hm
          · split at hm
            · cases hm
            · cases hm
              exact ⟨rfl, rfl, rfl⟩
          · cases hm
    | jnull => simp [SchemaMetricList.from_dict] at hm
    | jbool b => simp [SchemaMetricList.from_dict] at hm
    | jint n => simp [SchemaMetricList.from_dict] at hm
    | jstr s => simp [SchemaMetricList.from_dict] at hm
    | jarr l => simp [SchemaMetricList.from_dict] at hm
  · intro n h im u d hyp
    refine ⟨?_, ?_, ?_, ?_⟩
    · simp [SchemaMetricList.from_dict, Metric.as_dict, reqStr, jGet, intGetD]
    · intro heq
      rcases hyp with hu | him
      · exact hu (by injection heq with _ _ _ h4 _; exact h4.symm)
      · subst him
        injection heq with _ _ h3 _ _
        exact Bool.false_ne_true h3
    · rcases hyp with hu | him
      · simp [Metric.compatible, Metric.units, Metric.is_meta, Metric.name,
          Metric.typeOf, hu]
      · subst him
        simp [Metric.compatible, Metric.units, Metric.is_meta, Metric.name,
          Metric.typeOf]
    · funext acc
      simp [Metric.update_digest, Metric.name, Metric.typeOf]

/-- Witness for C10 at a concrete list field carrying units and `is_meta`. -/
theorem c10_witness :
    SchemaMetricList.from_dict
        (Metric.as_dict (.lst "l" 5 true (some "kB") none))
        = some (.lst "l" 5 false none none) ∧
    Metric.lst "l" 5 false none none ≠ Metric.lst "l" 5 true (some "kB") none ∧
    Metric.compatible (.lst "l" 5 true (some "kB") none)
        (.lst "l" 5 false none none) = false ∧
    Metric.update_digest (.lst "l" 5 true (some "kB") none)
        = Metric.update_digest (.lst "l" 5 false none none) :=
  c10_list_from_dict_ignores_units_meta_doc.2 "l" 5 true (some "kB") none
    (Or.inl (by simp))

mutual

/-- The `metric_type` entry of a native metric descriptor: a type string, or
a `RecordDef` for record fields. -/
inductive LdmsMType where
  | tstr (s : String)
  | trec (rd : LdmsRecDef)

/-- `ldms.RecordDef(name, mlist)`. -/
inductive LdmsRecDef where
  | mk (name : String) (members : List LdmsDesc)

/-- One native metric descriptor as `as_ldms_metric_desc` builds it: name,
metric type, optional count, the `meta` flag, the `units` entry (present only
when truthy) and the record-array's `rec_def`. -/
inductive LdmsDesc where
  | mk (name : String) (mtype : LdmsMType) (count : Option Int) (meta : Bool)
      (units : Option String) (rec_def : Option LdmsRecDef)

end

/-- The `metric_type` of a descriptor. -/
def LdmsDesc.mtype : LdmsDesc → LdmsMType
  | .mk _ t _ _ _ _ => t

/-- The `name` of a descriptor. -/
def LdmsDesc.nameOf : LdmsDesc → String
  | .mk n _ _ _ _ _ => n

/-- Whether a descriptor's `metric_type` is a `RecordDef`. -/
def mtypeIsRec (d : LdmsDesc) : Bool :=
  match d.mtype with
  | .trec _ => true
  | .tstr _ => false

/-- A string-typed descriptor is not a record definition. -/
theorem mtypeIsRec_tstr (n : String) (s : String) (c : Option Int) (m : Bool)
    (u : Option String) (r : Option LdmsRecDef) :
    mtypeIsRec (.mk n (.tstr s) c m u r) = false := rfl

/-- A record-def-typed descriptor is a record definition. -/
theorem mtypeIsRec_trec (n : String) (rd : LdmsRecDef) (c : Option Int)
    (m : Bool) (u : Option String) (r : Option LdmsRecDef) :
    mtypeIsRec (.mk n (.trec rd) c m u r) = true := rfl

/-- The `units` entry: present only when the attribute is truthy. -/
def unitsDesc : Option String → Option String
  | some s => if s = "" then none else some s
  | none => none

/-- Errors of schema materialization: the dangling record-array reference,
the reference to a non-record field, the `TypeError` a record-array member of
a record raises (`as_ldms_metric_desc` without `rec_def`), and the `KeyError`
of a kind `TYPE_STR_TBL` cannot print. -/
inductive LdmsErr where
  | unknownRecordType (rt : String)
  | nonRecordRef
  | typeErr
  | keyErr
deriving DecidableEq, Repr

/-- Generic association-list lookup (a Python `dict.get`). -/
def assocFind {α : Type} : List (String × α) → String → Option α
  | [], _ => none
  | (k, v) :: rest, key => if k = key then some v else assocFind rest key

mutual

/-- `as_ldms_metric_desc` for every class except `SchemaMetricRecordArray`
(whose override demands a `rec_def` argument and therefore raises `TypeError`
when called without one, as happens for a record member). -/
def memberDesc : Metric → Except LdmsErr LdmsDesc
  | .prim n t im u _ =>
      match typeStrTbl t with
      | none => .error .keyErr
      | some ts => .ok (.mk n (.tstr ts) none im (unitsDesc u) none)
  | .arr n item len im u _ =>
      match typeStrTbl ((arrayTblVt item).getD .TIMESTAMP) with
      | none => .error .keyErr
      | some ts => .ok (.mk n (.tstr ts) (some len) im (unitsDesc u) none)
  | .lst n h im u _ => .ok (.mk n (.tstr "list") (some h) im (unitsDesc u) none)
  | .record n ms im u _ =>
      match memberDescList ms with
      | .error e => .error e
      | .ok ds => .ok (.mk n (.trec (.mk n ds)) none im (unitsDesc u) none)
  | .recarr _ _ _ _ _ _ => .error .typeErr

/-- Descriptors of a record's members, in order. -/
def memberDescList : List Metric → Except LdmsErr (List LdmsDesc)
  | [] => .ok []
  | m :: ms =>
      match memberDesc m with
      | .error e => .error e
      | .ok d =>
          match memberDescList ms with
          | .error e => .error e
          | .ok ds => .ok (d :: ds)

end

/-- The loop of `Schema.as_ldms_schema`: build each field's descriptor with
the accumulated name-to-descriptor map `_mdict` (prepending, so the first hit
is the latest assignment).  A record-array looks its `record_type` up in the
map built so far: a missing name raises the dangling-reference `ValueError`,
a name bound to a non-`RecordDef` descriptor raises `TypeError`.  The four
non-record-array cases share one inlined body (the Python `else` branch); the
dispatch on `m.type == RECORD_ARRAY` is modelled by the record-array variant,
which agrees on every field a constructor can build. -/
def buildLdms : List Metric → List (String × LdmsDesc) →
    Except LdmsErr (List LdmsDesc)
  | [], _ => .ok []
  | .recarr n rt len im u _ :: ms, mdict =>
      match assocFind mdict rt with
      | none => .error (.unknownRecordType rt)
      | some d0 =>
          match d0.mtype with
          | .trec rd =>
              match buildLdms ms ((n, .mk n (.tstr "record[]") (some len) im
                  (unitsDesc u) (some rd)) :: mdict) with
              | .error e => .error e
              | .ok rest =>
                  .ok (.mk n (.tstr "record[]") (some len) im (unitsDesc u)
                    (some rd) :: rest)
          | .tstr _ => .error .nonRecordRef
  | .prim n t im u d :: ms, mdict =>
      match memberDesc (.prim n t im u d) with
      | .error e => .error e
      | .ok dd =>
          match buildLdms ms ((n, dd) :: mdict) with
          | .error e => .error e
          | .ok rest => .ok (dd :: rest)
  | .arr n it len im u d :: ms, mdict =>
      match memberDesc (.arr n it len im u d) with
      | .error e => .error e
      | .ok dd =>
          match buildLdms ms ((n, dd) :: mdict) with
          | .error e => .error e
          | .ok rest => .ok (dd :: rest)
  | .lst n h im u d :: ms, mdict =>
      match memberDesc (.lst n h im u d) with
      | .error e => .error e
      | .ok dd =>
          match buildLdms ms ((n, dd) :: mdict) with
          | .error e => .error e
          | .ok rest => .ok (dd :: rest)
  | .record n fs im u d :: ms, mdict =>
      match memberDesc (.record n fs im u d) with
      | .error e => .error e
      | .ok dd =>
          match buildLdms ms ((n, dd) :: mdict) with
          | .error e => .error e
          | .ok rest => .ok (dd :: rest)

/-- The shared non-record-array step, for reasoning: definitionally equal to
each of the four inlined bodies above. -/
def buildStepRHS (m : Metric) (ms : List Metric)
    (mdict : List (String × LdmsDesc)) : Except LdmsErr (List LdmsDesc) :=
  match memberDesc m with
  | .error e => .error e
  | .ok dd =>
      match buildLdms ms ((m.name, dd) :: mdict) with
      | .error e => .error e
      | .ok rest => .ok (dd :: rest)

/-- `Schema.as_ldms_schema`, up to the descriptor list it would hand to the
native schema object. -/
def Schema.as_ldms_schema (s : Schema) : Except LdmsErr (List LdmsDesc) :=
  buildLdms s.metrics []

/-- Whether an `Except` is a success. -/
def exceptOk {ε α : Type} : Except ε α → Bool
  | .ok _ => true
  | .error _ => false

/-- The specification's ordering condition: walking the fields in source
order with an environment of the names seen so far (paired with whether the
latest field of that name is a record type), every record-array's
`record_type` must name an earlier field that is a record. -/
def resolvesOK : List Metric → List (String × Bool) → Bool
  | [], _ => true
  | .recarr n rt _ _ _ _ :: ms, env =>
      (match assocFind env rt with
       | some true => true
       | _ => false) && resolvesOK ms ((n, false) :: env)
  | m :: ms, env =>
      resolvesOK ms ((m.name, decide (m.typeOf = .RECORD_TYPE)) :: env)

mutual

/-- Fields that materialize without their own error: scalar kinds only, and
no record-array nested inside a record. -/
def ldmsSafe : Metric → Bool
  | .prim _ t _ _ _ => scalarKind t
  | .arr _ it _ _ _ _ => scalarKind it
  | .lst _ _ _ _ _ => true
  | .record _ ms _ _ _ => ldmsSafeList ms
  | .recarr _ _ _ _ _ _ => false

/-- All members materialize without their own error. -/
def ldmsSafeList : List Metric → Bool
  | [] => true
  | m :: ms => ldmsSafe m && ldmsSafeList ms

end

/-- A top-level field is either a record-array or an `ldmsSafe` field. -/
def wfLdmsField : Metric → Bool
  | .recarr _ _ _ _ _ _ => true
  | m => ldmsSafe m

/-- All top-level fields are well formed for materialization. -/
def wfLdmsFieldList : List Metric → Bool
  | [] => true
  | m :: ms => wfLdmsField m && wfLdmsFieldList ms

/-- Scalar kinds have a canonical type string. -/
theorem scalar_typeStr_isSome :
    ∀ t : ValueType, scalarKind t = true → (typeStrTbl t).isSome = true := by
  decide

/-- Scalar array kinds have a canonical type string. -/
theorem scalar_arrayTypeStr_isSome :
    ∀ t : ValueType, scalarKind t = true →
      (typeStrTbl ((arrayTblVt t).getD .TIMESTAMP)).isSome = true := by
  decide

/-- Scalar kinds are not the record kind. -/
theorem scalar_ne_recordType :
    ∀ t : ValueType, scalarKind t = true →
      decide (t = ValueType.RECORD_TYPE) = false := by
  decide

/-- Scalar array kinds are not the record kind. -/
theorem scalar_array_ne_recordType :
    ∀ t : ValueType, scalarKind t = true →
      decide ((arrayTblVt t).getD .TIMESTAMP = ValueType.RECORD_TYPE)
        = false := by
  decide

mutual

/-- A safe field's descriptor exists, keeps the field name, and is a
`RecordDef` exactly for record fields. -/
theorem memberDesc_ok :
    ∀ m : Metric, ldmsSafe m = true →
      ∃ d, memberDesc m = .ok d ∧ d.nameOf = m.name ∧
        mtypeIsRec d = decide (m.typeOf = .RECORD_TYPE)
  | .prim n t im u d, h => by
      have hsc : scalarKind t = true := by simpa [ldmsSafe] using h
      obtain ⟨ts, hts⟩ := Option.isSome_iff_exists.mp (scalar_typeStr_isSome t hsc)
      refine ⟨.mk n (.tstr ts) none im (unitsDesc u) none, ?_, rfl, ?_⟩
      · simp [memberDesc, hts]
      · simp [mtypeIsRec, LdmsDesc.mtype, Metric.typeOf,
          scalar_ne_recordType t hsc]
  | .arr n it len im u d, h => by
      have hsc : scalarKind it = true := by simpa [ldmsSafe] using h
      obtain ⟨ts, hts⟩ :=
        Option.isSome_iff_exists.mp (scalar_arrayTypeStr_isSome it hsc)
      refine ⟨.mk n (.tstr ts) (some len) im (unitsDesc u) none, ?_, rfl, ?_⟩
      · simp [memberDesc, hts]
      · simp [mtypeIsRec, LdmsDesc.mtype, Metric.typeOf,
          scalar_array_ne_recordType it hsc]
  | .lst n hs im u d, h => by
      refine ⟨.mk n (.tstr "list") (some hs) im (unitsDesc u) none,
        by simp [memberDesc], rfl, ?_⟩
      simp [mtypeIsRec, LdmsDesc.mtype, Metric.typeOf]
  | .record n ms im u d, h => by
      obtain ⟨ds, hds⟩ := memberDescList_ok ms (by simpa [ldmsSafe] using h)
      refine ⟨.mk n (.trec (.mk n ds)) none im (unitsDesc u) none, ?_, rfl, ?_⟩
      · simp [memberDesc, hds]
      · simp [mtypeIsRec, LdmsDesc.mtype, Metric.typeOf]
  | .recarr n rt len im u d, h => by simp [ldmsSafe] at h

/-- All descriptors of a safe member list exist. -/
theorem memberDescList_ok :
    ∀ ms : List Metric, ldmsSafeList ms = true →
      ∃ ds, memberDescList ms = .ok ds
  | [], _ => ⟨[], rfl⟩
  | m :: ms, h => by
      simp only [ldmsSafeList, Bool.and_eq_true] at h
      obtain ⟨d, hd, _, _⟩ := memberDesc_ok m h.1
      obtain ⟨ds, hds⟩ := memberDescList_ok ms h.2
      exact ⟨d :: ds, by simp [memberDescList, hd, hds]⟩

end

/-- Mapping a value transformation over an association list commutes with
lookup. -/
theorem assocFind_map {α β : Type} (f : α → β) :
    ∀ (l : List (String × α)) (k : String),
      assocFind (l.map fun p => (p.1, f p.2)) k = (assocFind l k).map f
  | [], _ => rfl
  | (k1, v) :: rest, k => by
      by_cases hk : k1 = k <;> simp [assocFind, hk, assocFind_map f rest k]

mutual

/-- The materialization loop succeeds exactly when every record-array
resolves to an earlier record in the accumulated environment. -/
theorem buildLdms_ok :
    ∀ (ms : List Metric) (mdict : List (String × LdmsDesc)),
      wfLdmsFieldList ms = true →
      exceptOk (buildLdms ms mdict)
        = resolvesOK ms (mdict.map fun p => (p.1, mtypeIsRec p.2))
  | [], _, _ => rfl
  | .recarr n rt len im u d :: ms, mdict, h => by
      have hrest : wfLdmsFieldList ms = true := by
        simp only [wfLdmsFieldList, Bool.and_eq_true] at h
        exact h.2
      cases hfind : assocFind mdict rt with
      | none =>
          simp [buildLdms, resolvesOK, assocFind_map, hfind, exceptOk]
      | some d0 =>
          obtain ⟨dn, dt, dc, dm, du, dr⟩ := d0
          cases dt with
          | tstr s =>
              simp [buildLdms, resolvesOK, assocFind_map, hfind, exceptOk,
                mtypeIsRec_tstr, LdmsDesc.mtype]
          | trec rd =>
              have IH := buildLdms_ok ms ((n, .mk n (.tstr "record[]")
                (some len) im (unitsDesc u) (some rd)) :: mdict) hrest
              simp only [List.map_cons, mtypeIsRec_tstr] at IH
              cases hb : buildLdms ms ((n, .mk n (.tstr "record[]") (some len)
                  im (unitsDesc u) (some rd)) :: mdict) with
              | error e =>
                  rw [hb] at IH
                  simpa [buildLdms, resolvesOK, assocFind_map, hfind,
                    LdmsDesc.mtype, mtypeIsRec_trec, hb, exceptOk] using IH
              | ok rest =>
                  rw [hb] at IH
                  simpa [buildLdms, resolvesOK, assocFind_map, hfind,
                    LdmsDesc.mtype, mtypeIsRec_trec, hb, exceptOk] using IH
  | .prim n t im u d :: ms, mdict, h =>
      buildLdms_step_ok (.prim n t im u d) ms mdict h rfl rfl rfl
  | .arr n it len im u d :: ms, mdict, h =>
      buildLdms_step_ok (.arr n it len im u d) ms mdict h rfl rfl rfl
  | .lst n hs im u d :: ms, mdict, h =>
      buildLdms_step_ok (.lst n hs im u d) ms mdict h rfl rfl rfl
  | .record n fs im u d :: ms, mdict, h =>
      buildLdms_step_ok (.record n fs im u d) ms mdict h rfl rfl rfl
termination_by ms _ _ => 2 * ms.length

/-- The shared step of `buildLdms_ok` for the four non-record-array cases. -/
theorem buildLdms_step_ok (m : Metric) (ms : List Metric)
    (mdict : List (String × LdmsDesc))
    (h : wfLdmsFieldList (m :: ms) = true)
    (hb : buildLdms (m :: ms) mdict = buildStepRHS m ms mdict)
    (hnr : wfLdmsField m = ldmsSafe m)
    (hres : resolvesOK (m :: ms) (mdict.map fun p => (p.1, mtypeIsRec p.2))
      = resolvesOK ms ((m.name, decide (m.typeOf = .RECORD_TYPE))
          :: mdict.map fun p => (p.1, mtypeIsRec p.2))) :
    exceptOk (buildLdms (m :: ms) mdict)
      = resolvesOK (m :: ms) (mdict.map fun p => (p.1, mtypeIsRec p.2)) := by
  simp only [wfLdmsFieldList, Bool.and_eq_true] at h
  obtain ⟨dd, hd, hname, hrec⟩ := memberDesc_ok m (hnr ▸ h.1)
  rw [hb, hres]
  have IH := buildLdms_ok ms ((m.name, dd) :: mdict) h.2
  simp only [List.map_cons, hrec, hname] at IH
  simp only [buildStepRHS, hd]
  cases hbuild : buildLdms ms ((m.name, dd) :: mdict) with
  | error e => rw [hbuild] at IH; simpa [exceptOk] using IH
  | ok rest => rw [hbuild] at IH; simpa [exceptOk] using IH
termination_by 2 * ms.length + 1

end

/-- A schema JSON document whose single field is a record-array referencing
a record type that appears nowhere in the schema. -/
def danglingJson : JVal :=
  .jobj [("schema", .jobj
    [("name", .jstr "s"), ("type", .jstr "record"),
     ("fields", .jarr [.jobj
       [("name", .jstr "ra"), ("type", .jstr "array"),
        ("items", .jstr "record"), ("record_type", .jstr "missing"),
        ("len", .jint 2)]])])]

/-- Counterexample to C5 as stated: loading a schema whose record-array
references an unknown record type succeeds — `from_dict` performs no
reference check at all; only materialization to the native descriptor form
(`as_ldms_schema`) rejects the same schema with the dangling-reference
error. -/
theorem c5_counterexample_load_accepts_dangling_ref :
    Schema.from_dict danglingJson
        = some ⟨"s", [.recarr "ra" "missing" 2 false none none], none⟩ ∧
    Schema.as_ldms_schema ⟨"s", [.recarr "ra" "missing" 2 false none none],
        none⟩ = .error (.unknownRecordType "missing") :=
  ⟨rfl, rfl⟩

/-- C5 (amended).  The dangling-record-reference invariant is enforced at
materialization, not at load: for a schema whose fields are well formed for
materialization, `as_ldms_schema` succeeds exactly when every record-array's
`record_type` names an earlier field whose latest occurrence is a record
type. -/
theorem c5_as_ldms_schema_ok_iff_refs_resolve :
    ∀ s : Schema, wfLdmsFieldList s.metrics = true →
      (exceptOk (Schema.as_ldms_schema s) = true
        ↔ resolvesOK s.metrics [] = true) := by
  intro s h
  rw [Schema.as_ldms_schema, buildLdms_ok s.metrics [] h]
  simp

/-- A schema declaring a record and then a record-array referencing it. -/
def exLdmsSchema : Schema :=
  ⟨"s", [.record "rec" [.prim "a" .U64 false none none] true none none,
         .recarr "ra" "rec" 3 false none none], none⟩

/-- Witness for the amended C5 at a schema whose record-array resolves. -/
theorem c5_witness :
    exceptOk (Schema.as_ldms_schema exLdmsSchema) = true
      ↔ resolvesOK exLdmsSchema.metrics [] = true :=
  c5_as_ldms_schema_ok_iff_refs_resolve exLdmsSchema (by decide)

mutual

/-- Parser fuel sufficient for the `as_dict` image of a field. -/
def needM : Metric → Nat
  | .record _ ms _ _ _ => 2 + needL ms
  | _ => 1

/-- Parser fuel sufficient for the `as_dict` images of a field list. -/
def needL : List Metric → Nat
  | [] => 1
  | m :: ms => 1 + max (needM m) (needL ms)

end

/-- The fuel requirement of a field list is positive. -/
theorem needL_pos : ∀ ms : List Metric, 1 ≤ needL ms
  | [] => Nat.le_refl 1
  | _ :: _ => by simp [needL]

/-- The canonical string of a scalar kind maps back through the forward
table, is not a structured type tag, and is non-empty. -/
theorem scalar_prim_facts :
    ∀ t : ValueType, scalarKind t = true →
      strTypeTbl ((typeStrTbl t).getD "") = some t ∧
      (typeStrTbl t).getD "" ≠ "array" ∧
      (typeStrTbl t).getD "" ≠ "list" ∧
      (typeStrTbl t).getD "" ≠ "record" ∧
      (typeStrTbl t).getD "" ≠ "" := by
  decide

/-- The canonical string of a scalar item kind resolves through the item and
array tables, to a non-record-array kind. -/
theorem scalar_item_facts :
    ∀ t : ValueType, scalarKind t = true →
      itemTypeTblStr ((typeStrTbl t).getD "") = some t ∧
      arrayTblStr ((typeStrTbl t).getD "")
        = some ((arrayTblVt t).getD .TIMESTAMP) ∧
      (arrayTblVt t).getD .TIMESTAMP ≠ .RECORD_ARRAY ∧
      (typeStrTbl t).getD "" ≠ "" := by
  decide

/-- A well-formed field has a non-empty name. -/
theorem wfMetric_name : ∀ m : Metric, wfMetric m = true → m.name ≠ "" := by
  intro m hm
  cases m with
  | prim n t im u d =>
      simp only [wfMetric, Bool.and_eq_true, decide_eq_true_eq] at hm
      simpa [Metric.name] using hm.1
  | arr n it len im u d =>
      simp only [wfMetric, Bool.and_eq_true, decide_eq_true_eq] at hm
      simpa [Metric.name] using hm.1
  | lst n h im u d =>
      simp only [wfMetric, decide_eq_true_eq] at hm
      simpa [Metric.name] using hm
  | record n ms im u d =>
      simp only [wfMetric, Bool.and_eq_true, decide_eq_true_eq] at hm
      simpa [Metric.name] using hm.1.1.1
  | recarr n rt len im u d =>
      simp only [wfMetric, decide_eq_true_eq] at hm
      simpa [Metric.name] using hm

/-- A membership test that fails refutes membership of every element. -/
theorem strMem_false_of :
    ∀ (l : List String) (v : String), strMem l v = false →
      ∀ x ∈ l, x ≠ v
  | [], _, _, x, hx => absurd hx (List.not_mem_nil x)
  | s :: rest, v, h, x, hx => by
      simp only [strMem, Bool.or_eq_false_iff, decide_eq_false_iff_not] at h
      rcases List.mem_cons.mp hx with rfl | hx
      · exact h.1
      · exact strMem_false_of rest v h.2 x hx

/-- The `as_dict` image of a well-formed field is an object carrying the
field's name and a non-empty type string. -/
theorem as_dict_shape :
    ∀ m : Metric, wfMetric m = true →
      ∃ fo, Metric.as_dict m = .jobj fo ∧
        jGet fo "name" = some (.jstr m.name) ∧
        ∃ ts, jGet fo "type" = some (.jstr ts) ∧ ts ≠ "" := by
  intro m hm
  cases m with
  | prim n t im u d =>
      have hsc : scalarKind t = true := by
        simp only [wfMetric, Bool.and_eq_true] at hm
        exact hm.2
      exact ⟨_, rfl, by simp [jGet, Metric.name], (typeStrTbl t).getD "",
        by simp [jGet], (scalar_prim_facts t hsc).2.2.2.2⟩
  | arr n it len im u d =>
      exact ⟨_, rfl, by simp [jGet, Metric.name], "array", by simp [jGet],
        by simp⟩
  | lst n h im u d =>
      exact ⟨_, rfl, by simp [jGet, Metric.name], "list", by simp [jGet],
        by simp⟩
  | record n ms im u d =>
      exact ⟨_, rfl, by simp [jGet, Metric.name], "record", by simp [jGet],
        by simp⟩
  | recarr n rt len im u d =>
      exact ⟨_, rfl, by simp [jGet, Metric.name], "array", by simp [jGet],
        by simp⟩

mutual

/-- Parsing the `as_dict` image of a well-formed field with enough fuel
yields its round-trip normalization. -/
theorem parse_as_dict :
    ∀ (m : Metric) (f : Nat), wfMetric m = true → needM m ≤ f →
      parseMetricF f (Metric.as_dict m) = some m.normalize
  | .prim n t im u d, f, hwf, hneed => by
      have hsc : scalarKind t = true := by
        simp only [wfMetric, Bool.and_eq_true] at hwf
        exact hwf.2
      obtain ⟨hrt, ha, hl, hr, hne⟩ := scalar_prim_facts t hsc
      cases f with
      | zero => simp [needM] at hneed
      | succ g =>
          cases u <;> cases d <;>
            simp [Metric.as_dict, parseMetricF, jGet, ha, hl, hr,
              parsePrimitive, reqStr, valueTypeFromObj, hrt, boolGet,
              jTruthy, optStrGet, joptStr, Metric.normalize]
  | .arr n it len im u d, f, hwf, hneed => by
      have hsc : scalarKind it = true := by
        simp only [wfMetric, Bool.and_eq_true] at hwf
        exact hwf.2
      obtain ⟨hitem, harr, hra, hne⟩ := scalar_item_facts it hsc
      cases f with
      | zero => simp [needM] at hneed
      | succ g =>
          cases u <;> cases d <;>
            simp [Metric.as_dict, parseMetricF, jGet, parseArrayLike,
              reqStr, intGetD, hitem, harr, hra, boolGet, jTruthy,
              optStrGet, joptStr, Metric.normalize]
  | .lst n h im u d, f, hwf, hneed => by
      cases f with
      | zero => simp [needM] at hneed
      | succ g =>
          simp [Metric.as_dict, parseMetricF, jGet,
            SchemaMetricList.from_dict, reqStr, intGetD, Metric.normalize]
  | .recarr n rt len im u d, f, hwf, hneed => by
      cases f with
      | zero => simp [needM] at hneed
      | succ g =>
          cases u <;> cases d <;>
            simp [Metric.as_dict, parseMetricF, jGet, parseArrayLike,
              parseRecordArray, arrayTblStr, reqStr, intGetD, boolGet,
              jTruthy, optStrGet, joptStr, Metric.normalize]
  | .record n ms im u d, f, hwf, hneed => by
      have hparts : (n ≠ "" ∧ ms.isEmpty = false)
          ∧ nodupStr (ms.map Metric.name) = true
            ∧ wfMetricList ms = true := by
        simp only [wfMetric, Bool.and_eq_true, decide_eq_true_eq,
          Bool.not_eq_true'] at hwf
        exact ⟨⟨hwf.1.1.1, hwf.1.1.2⟩, hwf.1.2, hwf.2⟩
      obtain ⟨⟨hn, hne⟩, hnd, hwfl⟩ := hparts
      cases f with
      | zero => simp [needM] at hneed
      | succ g =>
          cases g with
          | zero =>
              have := needL_pos ms
              simp [needM] at hneed
              omega
          | succ g' =>
              cases ms with
              | nil => simp at hne
              | cons m0 mrest =>
                  have hfuel : needL (m0 :: mrest) ≤ g' := by
                    simp only [needM] at hneed
                    omega
                  have hpf := parseFields_as_dict (m0 :: mrest) g' [] hwfl
                    hnd (fun m' _ => rfl) hfuel
                  simp only [asDictList] at hpf
                  simp [Metric.as_dict, parseMetricF, parseRecordF,
                    asDictList, jGet, hn, hpf, Metric.normalize,
                    normalizeList]
  termination_by m _ _ _ => sizeOf m

/-- Parsing the `as_dict` images of a well-formed field list with fresh
names and enough fuel yields the normalized fields. -/
theorem parseFields_as_dict :
    ∀ (ms : List Metric) (f : Nat) (seen : List String),
      wfMetricList ms = true → nodupStr (ms.map Metric.name) = true →
      (∀ m' ∈ ms, strMem seen m'.name = false) → needL ms ≤ f →
      parseFieldsF f (asDictList ms) seen = some (normalizeList ms)
  | [], f, seen, _, _, _, hneed => by
      cases f with
      | zero => simp [needL] at hneed
      | succ g => simp [asDictList, parseFieldsF, normalizeList]
  | m :: rest, f, seen, hwf, hnd, hdisj, hneed => by
      simp only [wfMetricList, Bool.and_eq_true] at hwf
      simp only [List.map_cons, nodupStr, Bool.and_eq_true,
        Bool.not_eq_true'] at hnd
      cases f with
      | zero =>
          have := needL_pos (m :: rest)
          omega
      | succ g =>
          obtain ⟨fo, hfo, hname, ts, hts, htsne⟩ := as_dict_shape m hwf.1
          have hnm : m.name ≠ "" := wfMetric_name m hwf.1
          have hfresh : strMem seen m.name = false :=
            hdisj m (List.mem_cons_self m rest)
          have hmfuel : needM m ≤ g := by
            have h1 := Nat.le_max_left (needM m) (needL rest)
            simp only [needL] at hneed
            omega
          have hlfuel : needL rest ≤ g := by
            have h2 := Nat.le_max_right (needM m) (needL rest)
            simp only [needL] at hneed
            omega
          have hrec : parseMetricF g (Metric.as_dict m) = some m.normalize :=
            parse_as_dict m g hwf.1 hmfuel
          have hrest : parseFieldsF g (asDictList rest) (m.name :: seen)
              = some (normalizeList rest) := by
            refine parseFields_as_dict rest g (m.name :: seen) hwf.2 hnd.2
              ?_ hlfuel
            intro m' hm'
            simp only [strMem, Bool.or_eq_false_iff,
              decide_eq_false_iff_not]
            refine ⟨?_, hdisj m' (List.mem_cons_of_mem m hm')⟩
            exact fun hcontr => strMem_false_of _ _ hnd.1 m'.name
              (List.mem_map_of_mem Metric.name hm') hcontr.symm
          rw [hfo] at hrec
          simp [asDictList, parseFieldsF, hfo, hname, hts, jTruthy, hnm,
            htsne, hfresh, hrec, hrest, normalizeList]
  termination_by ms _ _ _ _ _ _ => sizeOf ms

end

/-- An optional string serializes to a single JSON node. -/
theorem joptStr_size : ∀ u : Option String, jvalSize (joptStr u) = 1 := by
  intro u
  cases u <;> rfl

mutual

/-- The fuel a field requires is at most the node count of its `as_dict`
image. -/
theorem needM_le_size : ∀ m : Metric, needM m ≤ jvalSize (Metric.as_dict m)
  | .prim n t im u d => by
      simp [needM, Metric.as_dict, jvalSize, jvalObjSize, joptStr_size]
  | .arr n it len im u d => by
      simp [needM, Metric.as_dict, jvalSize, jvalObjSize, joptStr_size]
  | .lst n h im u d => by
      simp [needM, Metric.as_dict, jvalSize, jvalObjSize, joptStr_size]
  | .record n ms im u d => by
      have h := needL_le_size ms
      simp only [needM, Metric.as_dict, jvalSize, jvalObjSize, joptStr_size]
      omega
  | .recarr n rt len im u d => by
      simp [needM, Metric.as_dict, jvalSize, jvalObjSize, joptStr_size]

/-- The fuel a field list requires is at most one more than the node count
of its `as_dict` images. -/
theorem needL_le_size :
    ∀ ms : List Metric, needL ms ≤ 1 + jvalListSize (asDictList ms)
  | [] => by simp [needL, asDictList, jvalListSize]
  | m :: rest => by
      have h1 := needM_le_size m
      have h2 := needL_le_size rest
      simp only [needL, asDictList, jvalListSize]
      have hmax : max (needM m) (needL rest)
          ≤ jvalSize (Metric.as_dict m) + (1 + jvalListSize (asDictList rest)) :=
        Nat.max_le.mpr ⟨by omega, by omega⟩
      omega

end

mutual

/-- Round-trip normalization does not change a field's digest skeleton. -/
theorem skeleton_normalize :
    ∀ m : Metric, Metric.skeleton m.normalize = m.skeleton
  | .prim n t im u d => rfl
  | .arr n it len im u d => rfl
  | .lst n h im u d => rfl
  | .record n ms im u d => by
      simp [Metric.normalize, Metric.skeleton, skeletonList_normalize ms]
  | .recarr n rt len im u d => rfl

/-- Round-trip normalization does not change a field list's skeletons. -/
theorem skeletonList_normalize :
    ∀ ms : List Metric, skeletonList (normalizeList ms) = skeletonList ms
  | [] => rfl
  | m :: rest => by
      simp [normalizeList, skeletonList, skeleton_normalize m,
        skeletonList_normalize rest]

end

/-- Loading the serialized form of a well-formed schema yields exactly its
round-trip normalization. -/
theorem from_dict_as_dict (s : Schema) (h : wfSchema s = true) :
    Schema.from_dict s.as_dict = some ⟨s.name, normalizeList s.metrics, none⟩ := by
  have hparts : (s.name ≠ "" ∧ s.metrics.isEmpty = false)
      ∧ nodupStr (s.metrics.map Metric.name) = true
        ∧ wfMetricList s.metrics = true := by
    simp only [wfSchema, Bool.and_eq_true, decide_eq_true_eq,
      Bool.not_eq_true'] at h
    exact ⟨⟨h.1.1.1, h.1.1.2⟩, h.1.2, h.2⟩
  obtain ⟨⟨hn, hne⟩, hnd, hwfl⟩ := hparts
  cases hms : s.metrics with
  | nil => rw [hms] at hne; simp at hne
  | cons m0 mrest =>
      rw [hms] at hnd hwfl
      have hfuel : needL (m0 :: mrest) ≤ jvalObjSize
          [("name", JVal.jstr s.name), ("type", JVal.jstr "record"),
           ("doc", joptStr s.doc),
           ("fields", JVal.jarr (Metric.as_dict m0 :: asDictList mrest))] := by
        have h9 := needL_le_size (m0 :: mrest)
        simp only [asDictList, jvalListSize] at h9
        simp only [jvalObjSize, jvalSize, joptStr_size, jvalListSize]
        omega
      have hpf := parseFields_as_dict (m0 :: mrest) _ [] hwfl hnd
        (fun m' _ => rfl) hfuel
      simp only [asDictList] at hpf
      simp [Schema.as_dict, Schema.from_dict, jGet, hms, asDictList,
        jvalSize, parseRecordF, hn, hpf, normalizeList]

/-- C2.  For every well-formed schema, serializing and re-loading yields a
schema whose digest equals the original digest byte for byte (the load drops
list units, record metadata and docs, none of which feed the digest). -/
theorem c2_load_of_dump_preserves_digest :
    ∀ s : Schema, wfSchema s = true →
      (Schema.from_dict s.as_dict).map Schema.digest = some s.digest := by
  intro s h
  rw [from_dict_as_dict s h]
  have hdig : Schema.digest ⟨s.name, normalizeList s.metrics, none⟩
      = s.digest := by
    simp only [Schema.digest, Schema.digestInput]
    rw [updList_eq, updList_eq]
    simp only [List.nil_append]
    rw [specContributionList_skeleton, specContributionList_skeleton,
      skeletonList_normalize]
  simp [hdig]

/-- A well-formed schema exercising every field shape. -/
def exSchemaC : Schema :=
  ⟨"procstat",
   [Metric.prim "MemTotal" .U64 true (some "kB") (some "total"),
    Metric.arr "loads" .D64 3 false none none,
    Metric.lst "lst" 4096 true (some "kB") (some "list doc"),
    Metric.record "rec" [Metric.prim "a" .S32 false (some "u") none,
      Metric.prim "b" .CHAR false none none] false (some "ru") (some "rd"),
    Metric.recarr "ra" "rec" 8 false none none],
   some "a schema"⟩

/-- Witness for C2 at a concrete schema with all field shapes. -/
theorem c2_witness :
    (Schema.from_dict exSchemaC.as_dict).map Schema.digest
      = some exSchemaC.digest :=
  c2_load_of_dump_preserves_digest exSchemaC (by decide)

/-- A scalar kind and a scalar's array kind never coincide. -/
theorem scalar_arr_distinct :
    ∀ t u : ValueType, scalarKind t = true → scalarKind u = true →
      t ≠ (arrayTblVt u).getD .TIMESTAMP
        ∧ (arrayTblVt t).getD .TIMESTAMP ≠ u := by
  decide

/-- A scalar kind is none of the structured kinds. -/
theorem scalar_fix_distinct :
    ∀ t : ValueType, scalarKind t = true →
      t ≠ .LIST ∧ t ≠ .RECORD_TYPE ∧ t ≠ .RECORD_ARRAY
        ∧ ValueType.LIST ≠ t ∧ ValueType.RECORD_ARRAY ≠ t := by
  decide

/-- A scalar's array kind is none of the structured kinds. -/
theorem arr_fix_distinct :
    ∀ t : ValueType, scalarKind t = true →
      (arrayTblVt t).getD .TIMESTAMP ≠ .LIST
        ∧ (arrayTblVt t).getD .TIMESTAMP ≠ .RECORD_TYPE
        ∧ (arrayTblVt t).getD .TIMESTAMP ≠ .RECORD_ARRAY
        ∧ ValueType.LIST ≠ (arrayTblVt t).getD .TIMESTAMP
        ∧ ValueType.RECORD_ARRAY ≠ (arrayTblVt t).getD .TIMESTAMP := by
  decide

mutual

/-- On kind-sane fields, the Python `compatible` dispatch agrees with the
specification's field compatibility. -/
theorem compat_iff :
    ∀ a b : Metric, wfKinds a = true → wfKinds b = true →
      (Metric.compatible a b = true ↔ specFieldCompat a b = true)
  | .prim n t im u d, .prim n2 t2 im2 u2 d2, _, _ => by
      simp [Metric.compatible, specFieldCompat, Metric.name, Metric.typeOf,
        Metric.units, Metric.is_meta]
  | .prim n t im u d, .arr n2 it2 len2 im2 u2 d2, ha, hb => by
      have h := (scalar_arr_distinct t it2 (by simpa [wfKinds] using ha)
        (by simpa [wfKinds] using hb)).1
      simp [Metric.compatible, specFieldCompat, Metric.name, Metric.typeOf,
        Metric.units, Metric.is_meta, h]
  | .prim n t im u d, .lst n2 h2 im2 u2 d2, ha, _ => by
      have h := (scalar_fix_distinct t (by simpa [wfKinds] using ha)).1
      simp [Metric.compatible, specFieldCompat, Metric.name, Metric.typeOf,
        Metric.units, Metric.is_meta, h]
  | .prim n t im u d, .record n2 ms2 im2 u2 d2, ha, _ => by
      have h := (scalar_fix_distinct t (by simpa [wfKinds] using ha)).2.1
      simp [Metric.compatible, specFieldCompat, Metric.name, Metric.typeOf,
        Metric.units, Metric.is_meta, h]
  | .prim n t im u d, .recarr n2 rt2 len2 im2 u2 d2, ha, _ => by
      have h := (scalar_fix_distinct t (by simpa [wfKinds] using ha)).2.2.1
      simp [Metric.compatible, specFieldCompat, Metric.name, Metric.typeOf,
        Metric.units, Metric.is_meta, h]
  | .arr n it len im u d, .prim n2 t2 im2 u2 d2, ha, hb => by
      have h := (scalar_arr_distinct it t2 (by simpa [wfKinds] using ha)
        (by simpa [wfKinds] using hb)).2
      simp [Metric.compatible, specFieldCompat, Metric.name, Metric.typeOf,
        Metric.units, Metric.is_meta, h]
  | .arr n it len im u d, .arr n2 it2 len2 im2 u2 d2, _, _ => by
      simp only [Metric.compatible, specFieldCompat, Metric.name,
        Metric.typeOf, Metric.units, Metric.is_meta, Metric.itemOf,
        Metric.lenOf, Bool.and_eq_true, decide_eq_true_eq,
        Option.some.injEq]
      constructor
      · rintro ⟨⟨⟨⟨⟨h1, _⟩, h3⟩, h4⟩, h5⟩, h6⟩
        exact ⟨⟨⟨⟨h1, h3⟩, h4⟩, h5⟩, h6⟩
      · rintro ⟨⟨⟨⟨h1, h3⟩, h4⟩, h5⟩, h6⟩
        subst h3
        exact ⟨⟨⟨⟨⟨h1, rfl⟩, rfl⟩, h4⟩, h5⟩, h6⟩
  | .arr n it len im u d, .lst n2 h2 im2 u2 d2, ha, _ => by
      have h := (arr_fix_distinct it (by simpa [wfKinds] using ha)).1
      simp [Metric.compatible, specFieldCompat, Metric.name, Metric.typeOf,
        Metric.units, Metric.is_meta, h]
  | .arr n it len im u d, .record n2 ms2 im2 u2 d2, ha, _ => by
      have h := (arr_fix_distinct it (by simpa [wfKinds] using ha)).2.1
      simp [Metric.compatible, specFieldCompat, Metric.name, Metric.typeOf,
        Metric.units, Metric.is_meta, h]
  | .arr n it len im u d, .recarr n2 rt2 len2 im2 u2 d2, ha, _ => by
      have h := (arr_fix_distinct it (by simpa [wfKinds] using ha)).2.2.1
      simp [Metric.compatible, specFieldCompat, Metric.name, Metric.typeOf,
        Metric.units, Metric.is_meta, h]
  | .lst n h im u d, .prim n2 t2 im2 u2 d2, _, hb => by
      have hx := (scalar_fix_distinct t2 (by simpa [wfKinds] using hb)).2.2.2.1
      simp [Metric.compatible, specFieldCompat, Metric.name, Metric.typeOf,
        Metric.units, Metric.is_meta, hx]
  | .lst n h im u d, .arr n2 it2 len2 im2 u2 d2, _, hb => by
      have hx := (arr_fix_distinct it2 (by simpa [wfKinds] using hb)).2.2.2.1
      simp [Metric.compatible, specFieldCompat, Metric.name, Metric.typeOf,
        Metric.units, Metric.is_meta, hx]
  | .lst n h im u d, .lst n2 h2 im2 u2 d2, _, _ => by
      simp [Metric.compatible, specFieldCompat, Metric.name, Metric.typeOf,
        Metric.units, Metric.is_meta]
  | .lst n h im u d, .record n2 ms2 im2 u2 d2, _, _ => by
      simp [Metric.compatible, specFieldCompat, Metric.name, Metric.typeOf,
        Metric.units, Metric.is_meta]
  | .lst n h im u d, .recarr n2 rt2 len2 im2 u2 d2, _, _ => by
      simp [Metric.compatible, specFieldCompat, Metric.name, Metric.typeOf,
        Metric.units, Metric.is_meta]
  | .record n ms im u d, .prim n2 t2 im2 u2 d2, _, _ => by
      simp [Metric.compatible, specFieldCompat]
  | .record n ms im u d, .arr n2 it2 len2 im2 u2 d2, _, _ => by
      simp [Metric.compatible, specFieldCompat]
  | .record n ms im u d, .lst n2 h2 im2 u2 d2, _, _ => by
      simp [Metric.compatible, specFieldCompat]
  | .record n ms im u d, .record n2 ms2 im2 u2 d2, ha, hb => by
      have hl := compatList_iff ms ms2 (by simpa [wfKinds] using ha)
        (by simpa [wfKinds] using hb)
      simp only [Metric.compatible, specFieldCompat, Bool.and_eq_true,
        decide_eq_true_eq]
      rw [hl]
      tauto
  | .record n ms im u d, .recarr n2 rt2 len2 im2 u2 d2, _, _ => by
      simp [Metric.compatible, specFieldCompat]
  | .recarr n rt len im u d, .prim n2 t2 im2 u2 d2, _, hb => by
      have hx := (scalar_fix_distinct t2 (by simpa [wfKinds] using hb)).2.2.2.2
      simp [Metric.compatible, specFieldCompat, Metric.name, Metric.typeOf,
        Metric.units, Metric.is_meta, hx]
  | .recarr n rt len im u d, .arr n2 it2 len2 im2 u2 d2, _, hb => by
      have hx := (arr_fix_distinct it2 (by simpa [wfKinds] using hb)).2.2.2.2
      simp [Metric.compatible, specFieldCompat, Metric.name, Metric.typeOf,
        Metric.units, Metric.is_meta, hx]
  | .recarr n rt len im u d, .lst n2 h2 im2 u2 d2, _, _ => by
      simp [Metric.compatible, specFieldCompat, Metric.name, Metric.typeOf,
        Metric.units, Metric.is_meta]
  | .recarr n rt len im u d, .record n2 ms2 im2 u2 d2, _, _ => by
      simp [Metric.compatible, specFieldCompat, Metric.name, Metric.typeOf,
        Metric.units, Metric.is_meta]
  | .recarr n rt len im u d, .recarr n2 rt2 len2 im2 u2 d2, _, _ => by
      simp [Metric.compatible, specFieldCompat, Metric.name, Metric.typeOf,
        Metric.units, Metric.is_meta, Metric.itemOf, Metric.lenOf]

/-- On kind-sane field lists, the Python pairwise loop agrees with the
specification's pairwise compatibility. -/
theorem compatList_iff :
    ∀ as bs : List Metric, wfKindsList as = true → wfKindsList bs = true →
      (compatList as bs = true ↔ specFieldCompatList as bs = true)
  | [], [], _, _ => by simp [compatList, specFieldCompatList]
  | [], _ :: _, _, _ => by simp [compatList, specFieldCompatList]
  | _ :: _, [], _, _ => by simp [compatList, specFieldCompatList]
  | a :: as, b :: bs, ha, hb => by
      simp only [wfKindsList, Bool.and_eq_true] at ha hb
      simp only [compatList, specFieldCompatList, Bool.and_eq_true]
      rw [compat_iff a b ha.1 hb.1, compatList_iff as bs ha.2 hb.2]

end

/-- C3.  On kind-sane schemas, `Schema.compatible` returns `True` exactly
when the field lists have equal length and each positional pair satisfies
the specification's field compatibility (same name, kind, units, `is_meta`;
arrays also same length and item kind; records recursively; lists ignoring
heap size). -/
theorem c3_compatible_iff_pairwise :
    ∀ s1 s2 : Schema,
      wfKindsList s1.metrics = true → wfKindsList s2.metrics = true →
      (Schema.compatible s1 s2 = true
        ↔ List.Forall₂ (fun a b => specFieldCompat a b = true)
            s1.metrics s2.metrics) := by
  have hforall : ∀ as bs : List Metric,
      specFieldCompatList as bs = true
        ↔ List.Forall₂ (fun a b => specFieldCompat a b = true) as bs := by
    intro as
    induction as with
    | nil =>
        intro bs
        cases bs <;> simp [specFieldCompatList]
    | cons a as ih =>
        intro bs
        cases bs with
        | nil => simp [specFieldCompatList]
        | cons b bs =>
            simp [specFieldCompatList, List.forall₂_cons, ih bs,
              Bool.and_eq_true]
  intro s1 s2 h1 h2
  rw [Schema.compatible, compatList_iff s1.metrics s2.metrics h1 h2,
    hforall]

/-- Witness for C3: two schemas equal except for heap size, array length and
docs, with the hypotheses discharged by evaluation. -/
theorem c3_witness :
    Schema.compatible
        ⟨"s", [Metric.lst "l" 1 false (some "u") none,
               Metric.prim "p" .U64 true none none], none⟩
        ⟨"s2", [Metric.lst "l" 900 false (some "u") (some "d"),
                Metric.prim "p" .U64 true none none], none⟩ = true
      ↔ List.Forall₂ (fun a b => specFieldCompat a b = true)
          [Metric.lst "l" 1 false (some "u") none,
           Metric.prim "p" .U64 true none none]
          [Metric.lst "l" 900 false (some "u") (some "d"),
           Metric.prim "p" .U64 true none none] :=
  c3_compatible_iff_pairwise
    ⟨"s", [Metric.lst "l" 1 false (some "u") none,
           Metric.prim "p" .U64 true none none], none⟩
    ⟨"s2", [Metric.lst "l" 900 false (some "u") (some "d"),
            Metric.prim "p" .U64 true none none], none⟩
    (by decide) (by decide)

/-- The key/value store behind the registry, as the etcd proxy exposes it:
an association list in which a later put shadows earlier entries.  Values
are the JSON documents (text serialization elided) or the index id
strings. -/
def Store := List (String × JVal)

/-- Read a key. -/
def Store.get (st : Store) (k : String) : Option JVal := assocFind st k

/-- `put`: unconditional write. -/
def Store.put (k : String) (v : JVal) (st : Store) : Store := (k, v) :: st

/-- `put_if_not_exists`: write only when the key is absent, reporting
whether the write happened. -/
def Store.put_if_not_exists (k : String) (v : JVal) (st : Store) :
    Bool × Store :=
  match assocFind st k with
  | some _ => (false, st)
  | none => (true, (k, v) :: st)

/-- The registry's key layout: only the configurable `etcd_prefix` (default
`/schema-registry`) matters to the store operations. -/
structure SchemaRegistry where
  root : String

/-- `_obj_key`: `<root>/objects/<id>`. -/
def SchemaRegistry.objKey (r : SchemaRegistry) (i : String) : String :=
  r.root ++ "/objects" ++ "/" ++ i

/-- `_name_key`: `<root>/index/names/<name>/<id>`. -/
def SchemaRegistry.nameKey (r : SchemaRegistry) (name i : String) : String :=
  r.root ++ "/index/names" ++ "/" ++ name ++ "/" ++ i

/-- `_digest_key`: `<root>/index/digests/<hex>/<id>`. -/
def SchemaRegistry.digestKey (r : SchemaRegistry) (digest i : String) : String :=
  r.root ++ "/index/digests" ++ "/" ++ digest ++ "/" ++ i

/-- `SchemaRegistry.add_schema`: put the object only if absent; if the key
already existed return without touching anything else; otherwise write the
name-index and digest-index entries. -/
def SchemaRegistry.add_schema (r : SchemaRegistry) (st : Store)
    (sch : Schema) : Store :=
  let digest := bytesHex sch.digest
  let i := sch.id
  let obj_key := r.objKey i
  let obj_json := sch.as_dict
  match Store.put_if_not_exists obj_key obj_json st with
  | (false, st1) => st1
  | (true, st1) =>
      let st2 := Store.put (r.nameKey sch.name i) (.jstr i) st1
      Store.put (r.digestKey digest i) (.jstr i) st2

/-- C4.  `add_schema` writes the object under `objects/<id>` with
put-if-absent: when the key exists the whole store is returned untouched (in
particular neither index is written); on a new put exactly the object key,
the name-index key and the digest-index key are written and every other key
reads as before; and a double add is a no-op whose second call changes
nothing, the id being a pure function of the schema. -/
theorem c4_add_schema_put_if_absent_frame :
    (∀ (r : SchemaRegistry) (st : Store) (sch : Schema),
      (Store.get st (r.objKey sch.id)).isSome = true →
        r.add_schema st sch = st) ∧
    (∀ (r : SchemaRegistry) (st : Store) (sch : Schema) (k : String),
      Store.get st (r.objKey sch.id) = none →
        Store.get (r.add_schema st sch) k
          = if r.digestKey (bytesHex sch.digest) sch.id = k
              then some (.jstr sch.id)
            else if r.nameKey sch.name sch.id = k then some (.jstr sch.id)
            else if r.objKey sch.id = k then some sch.as_dict
            else Store.get st k) ∧
    (∀ (r : SchemaRegistry) (st : Store) (sch : Schema),
      r.add_schema (r.add_schema st sch) sch = r.add_schema st sch) := by
  have habs : ∀ (r : SchemaRegistry) (st : Store) (sch : Schema),
      Store.get st (r.objKey sch.id) = none →
        r.add_schema st sch
          = (r.digestKey (bytesHex sch.digest) sch.id, .jstr sch.id)
            :: (r.nameKey sch.name sch.id, .jstr sch.id)
            :: (r.objKey sch.id, sch.as_dict) :: st := by
    intro r st sch h
    simp only [SchemaRegistry.add_schema, Store.put_if_not_exists, Store.get]
      at h ⊢
    rw [h]
    rfl
  have hpres : ∀ (r : SchemaRegistry) (st : Store) (sch : Schema),
      (Store.get st (r.objKey sch.id)).isSome = true →
        r.add_schema st sch = st := by
    intro r st sch h
    obtain ⟨v, hv⟩ := Option.isSome_iff_exists.mp h
    simp only [Store.get] at hv
    simp only [SchemaRegistry.add_schema, Store.put_if_not_exists, hv]
  refine ⟨hpres, ?_, ?_⟩
  · intro r st sch k h
    rw [habs r st sch h]
    simp only [Store.get, assocFind]
  · intro r st sch
    cases hget : Store.get st (r.objKey sch.id) with
    | some v =>
        have h1 := hpres r st sch (by simp [hget])
        rw [h1, h1]
    | none =>
        rw [habs r st sch hget]
        apply hpres
        simp only [Store.get, assocFind]
        by_cases h1 : r.digestKey (bytesHex sch.digest) sch.id
            = r.objKey sch.id <;>
          by_cases h2 : r.nameKey sch.name sch.id = r.objKey sch.id <;>
          simp [h1, h2]

/-- The registry with the default prefix. -/
def exReg : SchemaRegistry := ⟨"/schema-registry"⟩

/-- The store after adding `exSchemaA` to an empty backend. -/
def exStore1 : Store := exReg.add_schema [] exSchemaA

set_option maxRecDepth 100000 in
/-- Witness for C4: re-adding an already stored schema returns the store
untouched, and a fresh add makes the object readable under its object
key. -/
theorem c4_witness :
    exReg.add_schema exStore1 exSchemaA = exStore1 ∧
    Store.get (exReg.add_schema [] exSchemaA) (exReg.objKey exSchemaA.id)
      = (if exReg.digestKey (bytesHex exSchemaA.digest) exSchemaA.id
            = exReg.objKey exSchemaA.id then some (.jstr exSchemaA.id)
         else if exReg.nameKey exSchemaA.name exSchemaA.id
            = exReg.objKey exSchemaA.id then some (.jstr exSchemaA.id)
         else if exReg.objKey exSchemaA.id = exReg.objKey exSchemaA.id
            then some exSchemaA.as_dict
         else Store.get [] (exReg.objKey exSchemaA.id)) :=
  ⟨c4_add_schema_put_if_absent_frame.1 exReg exStore1 exSchemaA (by decide),
   c4_add_schema_put_if_absent_frame.2.1 exReg [] exSchemaA
     (exReg.objKey exSchemaA.id) rfl⟩

/-- What one backend call can do: succeed with a value, raise the
backend-specific transport error (`etcd3.Etcd3Exception`), or raise any
other exception. -/
inductive KvOutcome where
  | ok (v : Nat)
  | transport
  | other

/-- The proxy state: `etcd_idx` (the next endpoint to rotate to), `etcd`
(the endpoint of the currently open client, endpoints being numbered
`0..n-1`), and the mutex. -/
structure EtcdProxy where
  etcd_idx : Nat
  etcd : Nat
  locked : Bool

/-- `__next_etcd_client`: open a client against `etcd_list[etcd_idx]`, then
advance `etcd_idx` modulo the endpoint count. -/
def nextEtcdClient (n : Nat) (p : EtcdProxy) : EtcdProxy :=
  { etcd_idx := (p.etcd_idx + 1) % n, etcd := p.etcd_idx, locked := p.locked }

/-- How a proxied call can end. -/
inductive ProxyResult where
  | ok (v : Nat)
  | raised
  | allBackendsDown

/-- The retry loop of `__proxy_fn_wrap`, with `i` attempts left.  `behave`
gives the outcome of calling each endpoint during this one call.  Success
and non-transport errors release the lock and stop; a transport error
rotates to the next client and retries; exhausting the endpoints releases
the lock and fails (the loop's `else: raise`, surfaced as the
all-backends-down failure). -/
def proxyAttempts (n : Nat) (behave : Nat → KvOutcome) :
    Nat → EtcdProxy → ProxyResult × EtcdProxy
  | 0, p => (.allBackendsDown, { p with locked := false })
  | i + 1, p =>
      match behave p.etcd with
      | .ok v => (.ok v, { p with locked := false })
      | .other => (.raised, { p with locked := false })
      | .transport => proxyAttempts n behave i (nextEtcdClient n p)

/-- One proxied call: acquire the mutex, then try up to `n` endpoints. -/
def proxyCall (n : Nat) (behave : Nat → KvOutcome) (p : EtcdProxy) :
    ProxyResult × EtcdProxy :=
  proxyAttempts n behave n { p with locked := true }

/-- The endpoint the `k`-th attempt of a call uses: the current client
first, then the rotation `etcd_idx`, `etcd_idx + 1`, ... modulo `n`. -/
def attempts (n : Nat) (p : EtcdProxy) : Nat → Nat
  | 0 => p.etcd
  | k + 1 => (p.etcd_idx + k) % n

/-- Rotating shifts the attempt sequence by one. -/
theorem attempts_nextEtcdClient (n : Nat) (p : EtcdProxy) (_hn : 0 < n)
    (hidx : p.etcd_idx < n) :
    ∀ k, attempts n (nextEtcdClient n p) k = attempts n p (k + 1) := by
  intro k
  cases k with
  | zero => simp [attempts, nextEtcdClient, Nat.mod_eq_of_lt hidx]
  | succ j =>
      simp only [attempts, nextEtcdClient]
      rw [Nat.mod_add_mod]
      congr 1
      omega

/-- Behaviour of the retry loop relative to the attempt sequence. -/
theorem proxyAttempts_spec (n : Nat) (behave : Nat → KvOutcome) :
    ∀ (i : Nat) (p : EtcdProxy), 0 < n → p.etcd_idx < n →
      ((∀ k, k < i → behave (attempts n p k) = .transport) →
        (proxyAttempts n behave i p).1 = .allBackendsDown) ∧
      (∀ k, k < i → (∀ j, j < k → behave (attempts n p j) = .transport) →
        (proxyAttempts n behave i p).1
          = (match behave (attempts n p k) with
             | .ok v => .ok v
             | .other => .raised
             | .transport => (proxyAttempts n behave i p).1)) ∧
      (proxyAttempts n behave i p).2.locked = false := by
  intro i
  induction i with
  | zero =>
      intro p hn hidx
      exact ⟨fun _ => rfl, fun k hk => absurd hk (Nat.not_lt_zero k), rfl⟩
  | succ i ih =>
      intro p hn hidx
      have hshift := attempts_nextEtcdClient n p hn hidx
      have hidx' : (nextEtcdClient n p).etcd_idx < n := Nat.mod_lt _ hn
      cases hb : behave p.etcd with
      | ok v =>
          refine ⟨fun hall => ?_, fun k hk hfirst => ?_, by
            simp [proxyAttempts, hb]⟩
          · have := hall 0 (Nat.succ_pos i)
            rw [show attempts n p 0 = p.etcd from rfl, hb] at this
            cases this
          · cases k with
            | zero =>
                rw [show attempts n p 0 = p.etcd from rfl, hb]
                simp [proxyAttempts, hb]
            | succ j =>
                have := hfirst 0 (Nat.succ_pos j)
                rw [show attempts n p 0 = p.etcd from rfl, hb] at this
                cases this
      | other =>
          refine ⟨fun hall => ?_, fun k hk hfirst => ?_, by
            simp [proxyAttempts, hb]⟩
          · have := hall 0 (Nat.succ_pos i)
            rw [show attempts n p 0 = p.etcd from rfl, hb] at this
            cases this
          · cases k with
            | zero =>
                rw [show attempts n p 0 = p.etcd from rfl, hb]
                simp [proxyAttempts, hb]
            | succ j =>
                have := hfirst 0 (Nat.succ_pos j)
                rw [show attempts n p 0 = p.etcd from rfl, hb] at this
                cases this
      | transport =>
          obtain ⟨ih1, ih2, ih3⟩ := ih (nextEtcdClient n p) hn hidx'
          have hred : proxyAttempts n behave (i + 1) p
              = proxyAttempts n behave i (nextEtcdClient n p) := by
            simp [proxyAttempts, hb]
          refine ⟨fun hall => ?_, fun k hk hfirst => ?_, by
            rw [hred]; exact ih3⟩
          · rw [hred]
            refine ih1 fun k hk => ?_
            rw [hshift k]
            exact hall (k + 1) (by omega)
          · cases k with
            | zero =>
                rw [show attempts n p 0 = p.etcd from rfl, hb, hred]
            | succ j =>
                rw [hred]
                have := ih2 j (by omega) fun l hl => by
                  rw [hshift l]
                  cases l with
                  | zero => exact hfirst 1 (by omega)
                  | succ l' => exact hfirst (l' + 2) (by omega)
                rw [← hshift j] at *
                exact this

/-- C7.  One proxied call tries the current client first and then the
rotation `etcd_idx`, `etcd_idx + 1`, ... modulo the endpoint count (each
transport error advancing the index and reopening a client against the new
endpoint): if the first attempt whose outcome is not the backend transport
error succeeds, the call returns its value; if it raises a non-transport
exception, that exception propagates; if all `n` endpoints fail with the
transport error within the one call, the call fails as all-backends-down.
The mutex is released on every exit path. -/
theorem c7_proxy_failover :
    ∀ (n : Nat) (behave : Nat → KvOutcome) (p : EtcdProxy),
      0 < n → p.etcd_idx < n →
      ((∀ k, k < n → behave (attempts n p k) = .transport) →
        (proxyCall n behave p).1 = .allBackendsDown) ∧
      (∀ k, k < n → (∀ j, j < k → behave (attempts n p j) = .transport) →
        (∀ v, behave (attempts n p k) = .ok v →
            (proxyCall n behave p).1 = .ok v) ∧
        (behave (attempts n p k) = .other →
            (proxyCall n behave p).1 = .raised)) ∧
      (proxyCall n behave p).2.locked = false := by
  intro n behave p hn hidx
  have hsame : ∀ k, attempts n { p with locked := true } k = attempts n p k := by
    intro k
    cases k <;> rfl
  obtain ⟨h1, h2, h3⟩ :=
    proxyAttempts_spec n behave n { p with locked := true } hn hidx
  refine ⟨fun hall => h1 fun k hk => ?_, fun k hk hfirst => ?_, h3⟩
  · rw [hsame k]
    exact hall k hk
  · have hstep := h2 k hk fun j hj => by rw [hsame j]; exact hfirst j hj
    rw [hsame k] at hstep
    constructor
    · intro v hv
      rw [hv] at hstep
      exact hstep
    · intro hv
      rw [hv] at hstep
      exact hstep

/-- Witness for C7: two endpoints, the current client down with the
transport error, the rotated-to endpoint healthy. -/
theorem c7_witness :
    ((∀ k, k < 2 → (fun e => if e = 0 then KvOutcome.transport
        else KvOutcome.ok 7) (attempts 2 ⟨1, 0, false⟩ k) = .transport) →
      (proxyCall 2 (fun e => if e = 0 then KvOutcome.transport
        else KvOutcome.ok 7) ⟨1, 0, false⟩).1 = .allBackendsDown) ∧
    (∀ k, k < 2 → (∀ j, j < k → (fun e => if e = 0 then KvOutcome.transport
        else KvOutcome.ok 7) (attempts 2 ⟨1, 0, false⟩ j) = .transport) →
      (∀ v, (fun e => if e = 0 then KvOutcome.transport
          else KvOutcome.ok 7) (attempts 2 ⟨1, 0, false⟩ k) = .ok v →
        (proxyCall 2 (fun e => if e = 0 then KvOutcome.transport
          else KvOutcome.ok 7) ⟨1, 0, false⟩).1 = .ok v) ∧
      ((fun e => if e = 0 then KvOutcome.transport
          else KvOutcome.ok 7) (attempts 2 ⟨1, 0, false⟩ k) = .other →
        (proxyCall 2 (fun e => if e = 0 then KvOutcome.transport
          else KvOutcome.ok 7) ⟨1, 0, false⟩).1 = .raised)) ∧
    (proxyCall 2 (fun e => if e = 0 then KvOutcome.transport
      else KvOutcome.ok 7) ⟨1, 0, false⟩).2.locked = false :=
  c7_proxy_failover 2
    (fun e => if e = 0 then KvOutcome.transport else KvOutcome.ok 7)
    ⟨1, 0, false⟩ (by decide) (by decide)

/-!
### C8 — Communicator error handling (`src/Communicator.py`)

The control-protocol client keeps a session state (`INIT`/`CONNECTED`/
`CLOSED`).  `send_command` raises unless the state is CONNECTED and the
transport send succeeds; `receive_response` raises unless the state is
CONNECTED, and when the underlying `recv` raises it first calls
`self.close()` (lines 143-152).  Each command method wraps
`req.send(self); resp = req.receive(self)` in a `try`, returning
`(resp.errcode, resp.msg)` on success and `(errno.ENOTCONN, None)` on any
exception.  Most handlers call `self.close()` before returning, but the
handlers of `auth_add` (154-177), `listen` (179-206) and `plugn_load`
(218-240) do not.  (`dir_list` has no send/receive phase at all: it calls
`self.ldms.dir()` directly, so it is outside this model.)

A `Wire` packages the environment's behaviour for one command: whether the
transport send succeeds, and what `recv` yields (`none` = `recv` raised).
-/

inductive CommCtrlState where
  | INIT
  | CONNECTED
  | CLOSED
deriving DecidableEq, Repr

/-- `errno.ENOTCONN` on Linux. -/
def ENOTCONN : Int := 107

structure Wire where
  sendOk : Bool
  recvResult : Option (Int × Option String)
deriving DecidableEq, Repr

/-- `send_command` (lines 137-141) succeeds iff the session is CONNECTED
and the transport send does not raise. -/
def Communicator.send_ok (st : CommCtrlState) (w : Wire) : Bool :=
  decide (st = CommCtrlState.CONNECTED) && w.sendOk

/-- `receive_response` (lines 143-152): raises (`none`) unless CONNECTED;
on a `recv` exception it closes the session before re-raising. -/
def Communicator.receive_response (st : CommCtrlState) (w : Wire) :
    CommCtrlState × Option (Int × Option String) :=
  if st = CommCtrlState.CONNECTED then
    match w.recvResult with
    | none => (CommCtrlState.CLOSED, none)
    | some r => (st, some r)
  else (st, none)

/-- The common body of a command method: try send+receive, and on any
exception return `(ENOTCONN, none)`, calling `close()` first iff the
method's handler does (`closesOnExc`). -/
def Communicator.runCmd (closesOnExc : Bool) (st : CommCtrlState)
    (w : Wire) : CommCtrlState × (Int × Option String) :=
  if Communicator.send_ok st w then
    match Communicator.receive_response st w with
    | (st1, some r) => (st1, r)
    | (st1, none) =>
        (if closesOnExc then CommCtrlState.CLOSED else st1, (ENOTCONN, none))
  else
    (if closesOnExc then CommCtrlState.CLOSED else st, (ENOTCONN, none))

/-- `auth_add` (lines 154-177): its `except` handler does NOT close. -/
def Communicator.auth_add :
    CommCtrlState → Wire → CommCtrlState × (Int × Option String) :=
  Communicator.runCmd false

/-- `listen` (lines 179-206): its handler does NOT close. -/
def Communicator.listen :
    CommCtrlState → Wire → CommCtrlState × (Int × Option String) :=
  Communicator.runCmd false

/-- `plugn_load` (lines 218-240): its handler does NOT close. -/
def Communicator.plugn_load :
    CommCtrlState → Wire → CommCtrlState × (Int × Option String) :=
  Communicator.runCmd false

/-- `prdcr_add` (lines 446-455): its handler DOES call `self.close()`. -/
def Communicator.prdcr_add :
    CommCtrlState → Wire → CommCtrlState × (Int × Option String) :=
  Communicator.runCmd true

/-- `updtr_add`: its handler DOES call `self.close()`. -/
def Communicator.updtr_add :
    CommCtrlState → Wire → CommCtrlState × (Int × Option String) :=
  Communicator.runCmd true

/-- Every Communicator command method with a send/receive phase, paired
with whether its exception handler calls `self.close()` (read off the
source, in definition order). -/
def commandMethods : List (String × Bool) :=
  [("auth_add", false), ("listen", false), ("plugn_load", false),
   ("plugn_config", true), ("plugn_stop", true), ("smplr_load", true),
   ("smplr_status", true), ("smplrset_status", true), ("plugn_start", true),
   ("prdcr_add", true), ("prdcr_del", true), ("prdcr_start", true),
   ("prdcr_stop", true), ("prdcr_subscribe", true), ("prdcr_status", true),
   ("prdcrset_status", true), ("updtr_add", true), ("updtr_del", true),
   ("updtr_status", true), ("updtr_start", true), ("updtr_stop", true),
   ("updtr_prdcr_add", true), ("updtr_prdcr_del", true),
   ("updtr_match_add", true), ("updtr_match_del", true),
   ("updtr_match_list", true), ("strgp_add", true), ("strgp_del", true),
   ("strgp_start", true), ("strgp_stop", true), ("strgp_prdcr_add", true),
   ("strgp_prdcr_del", true), ("strgp_metric_add", true),
   ("strgp_metric_del", true), ("xprt_stats", true), ("thread_stats", true),
   ("daemon_status", true)]

/-- C8 counterexample: `auth_add` is listed in the spec's claim, yet when
the send raises on a CONNECTED session its handler returns
`(ENOTCONN, None)` WITHOUT closing — the session stays CONNECTED, not
CLOSED as the claim asserts for every method. -/
theorem c8_counterexample_auth_add_does_not_close :
    Communicator.auth_add CommCtrlState.CONNECTED ⟨false, none⟩
      = (CommCtrlState.CONNECTED, (ENOTCONN, none)) ∧
    ("auth_add", false) ∈ commandMethods ∧
    CommCtrlState.CONNECTED ≠ CommCtrlState.CLOSED :=
  ⟨rfl, by decide, by decide⟩

/-- C8 (corrected): every command method with a send/receive phase
returns `(errno.ENOTCONN, None)` on a send or receive exception, but only
the methods whose handler calls `self.close()` always end CLOSED; the
three that do not (`auth_add`, `listen`, `plugn_load`) end CLOSED exactly
when the failure happened inside `receive_response` (which closes
itself), i.e. when the send succeeded, and otherwise leave the state
unchanged. -/
theorem c8_commands_enotconn_close_depends_on_method :
    ∀ p ∈ commandMethods, ∀ (st : CommCtrlState) (w : Wire),
      Communicator.send_ok st w = false ∨ w.recvResult = none →
      Communicator.runCmd p.2 st w
        = (if p.2 || Communicator.send_ok st w then CommCtrlState.CLOSED
           else st,
           (ENOTCONN, none)) := by
  intro p _hp st w h
  by_cases hs : Communicator.send_ok st w = true
  · have hr : w.recvResult = none := by
      rcases h with h | h
      · rw [h] at hs; cases hs
      · exact h
    have hst : st = CommCtrlState.CONNECTED := by
      have h1 := (Bool.and_eq_true _ _).mp hs
      exact of_decide_eq_true h1.1
    subst hst
    simp [Communicator.runCmd, hs, Communicator.receive_response, hr]
  · have hs' : Communicator.send_ok st w = false := by
      cases hfull : Communicator.send_ok st w
      · rfl
      · exact absurd hfull hs
    simp [Communicator.runCmd, hs']

/-- Witness for C8: `auth_add` (a non-closing method) on a CONNECTED
session whose send fails. -/
theorem c8_witness :
    Communicator.runCmd ("auth_add", false).2 CommCtrlState.CONNECTED
        ⟨false, none⟩
      = (if ("auth_add", false).2
            || Communicator.send_ok CommCtrlState.CONNECTED ⟨false, none⟩
         then CommCtrlState.CLOSED else CommCtrlState.CONNECTED,
         (ENOTCONN, none)) :=
  c8_commands_enotconn_close_depends_on_method ("auth_add", false)
    (by decide) CommCtrlState.CONNECTED ⟨false, none⟩ (Or.inl rfl)

/-!
### C6 — `cvt_intrvl_str_to_us` (`src/maestro_util.py` lines 34-89)

The converter passes `int` inputs through, raises on non-`int`/non-`str`
inputs, lowercases strings, and then tries the unit branches in order
`us` (x1), `ms` (x1000), `s` (x1000000), `m` (x60000000), each gated by
Python substring containment (`unit in interval_s`) and checked only via
`interval_s.split(unit)[1] != ''`.  There is NO `h` or `d` branch: when no
unit matches, `ival_s` is left unbound, `float(ival_s)` raises
`UnboundLocalError`, and the bare `except` turns it into `ValueError`.

Modelling notes, all visible in the definitions below: `pySplit` is
Python's non-overlapping left-to-right `str.split(sep)` for a non-empty
separator; `pyFloat` parses the plain decimal literals `[+-]?d*(.d*)?`
(with at least one digit) exactly as a rational `mantissa / 10 ^ scale`
(Python's `float()` also accepts exponent forms, `inf`/`nan` and
surrounding whitespace, and computes in IEEE doubles; none of that is
exercised by interval strings, and the exact-rational `int(mult * factor)`
below agrees with the float computation on every value stated in the
theorems).  `Option.none` models a raised `ValueError`.
-/

def listStartsWith : List Char → List Char → Bool
  | _, [] => true
  | [], _ :: _ => false
  | c :: cs, p :: ps => decide (c = p) && listStartsWith cs ps

def splitAux (sep : List Char) : Nat → List Char → List Char → List (List Char)
  | _, [], acc => [acc.reverse]
  | 0, c :: cs, acc => [acc.reverse ++ (c :: cs)]
  | fuel + 1, c :: cs, acc =>
      if listStartsWith (c :: cs) sep then
        acc.reverse :: splitAux sep fuel ((c :: cs).drop sep.length) []
      else
        splitAux sep fuel cs (c :: acc)

/-- Python `s.split(sep)` for non-empty `sep`. -/
def pySplit (s sep : String) : List String :=
  (splitAux sep.data s.data.length s.data []).map (fun l => String.mk l)

/-- Python `sub in s` for non-empty `sub`: `split` found an occurrence. -/
def pyContains (sub s : String) : Bool :=
  2 ≤ (pySplit s sub).length

/-- Python `str.lower()` restricted to ASCII (interval strings). -/
def pyLowerChar (c : Char) : Char :=
  if 'A' ≤ c ∧ c ≤ 'Z' then Char.ofNat (c.toNat + 32) else c

def pyLower (s : String) : String :=
  String.mk (s.data.map pyLowerChar)

/-- Consume leading digits: value, digit count, remainder. -/
def parseDigits : List Char → Nat → Nat → Nat × Nat × List Char
  | [], acc, cnt => (acc, cnt, [])
  | c :: cs, acc, cnt =>
      if c.isDigit then parseDigits cs (acc * 10 + (c.toNat - 48)) (cnt + 1)
      else (acc, cnt, c :: cs)

/-- Python `float()` on a plain decimal literal, as `(mantissa, scale)`
with value `mantissa / 10 ^ scale`; `none` = `float()` raised. -/
def pyFloat (s : String) : Option (Int × Nat) :=
  let p : Int × List Char :=
    match s.data with
    | '+' :: r => (1, r)
    | '-' :: r => (-1, r)
    | r => (1, r)
  match parseDigits p.2 0 0 with
  | (ip, icnt, rest) =>
    match rest with
    | [] => if icnt = 0 then none else some (p.1 * ip, 0)
    | '.' :: r =>
        match parseDigits r 0 0 with
        | (fp, fcnt, rest2) =>
          match rest2 with
          | [] =>
              if icnt + fcnt = 0 then none
              else some (p.1 * (ip * 10 ^ fcnt + fp), fcnt)
          | _ :: _ => none
    | _ :: _ => none

/-- One unit branch of the converter: check `split(unit)[1] != ''`, take
`split(unit)[0]`, run `float`, and truncate `mult * factor` toward zero
(Python `int()`). -/
def cvtUnit (u : String) (factor : Int) (t : String) : Option Int :=
  let parts := pySplit t u
  if parts.getD 1 "" ≠ "" then none
  else
    match pyFloat (parts.getD 0 "") with
    | none => none
    | some md => some (Int.tdiv (md.1 * factor) ((10 : Int) ^ md.2))

/-- A Python argument: an `int`, a `str`, or anything else. -/
inductive PyVal where
  | int (n : Int)
  | str (s : String)
  | other
deriving DecidableEq, Repr

/-- `cvt_intrvl_str_to_us` (lines 34-89); `none` = raised `ValueError`. -/
def cvt_intrvl_str_to_us : PyVal → Option Int
  | PyVal.int n => some n
  | PyVal.other => none
  | PyVal.str s =>
      let t := pyLower s
      if pyContains "us" t then cvtUnit "us" 1 t
      else if pyContains "ms" t then cvtUnit "ms" 1000 t
      else if pyContains "s" t then cvtUnit "s" 1000000 t
      else if pyContains "m" t then cvtUnit "m" 60000000 t
      else none

/-- C6 counterexample: the claimed units `h` and `d` do not exist —
`cvt("1h")` raises instead of returning 3_600_000_000 — and the
"no trailing characters" check only inspects `split(unit)[1]`, so the
malformed `"1ss"` is accepted as 1 second. -/
theorem c6_counterexample_no_hour_unit_and_trailing_s_accepted :
    cvt_intrvl_str_to_us (PyVal.str "1h") = none ∧
    cvt_intrvl_str_to_us (PyVal.str "1ss") = some 1000000 :=
  ⟨rfl, rfl⟩

/-- C6 (corrected): the converter passes plain integers through and
accepts a decimal number followed by one of the case-insensitive units
`us` (x1), `ms` (x1000), `s` (x1000000), `m` (x60000000) — there is no
`h` or `d` unit, a unit-less or empty string raises, `"50s40us"` raises,
and the trailing-character check misses separator-adjacent repeats such
as `"1ss"`. -/
theorem c6_cvt_intrvl_units_and_passthrough :
    (∀ n : Int, cvt_intrvl_str_to_us (PyVal.int n) = some n) ∧
    cvt_intrvl_str_to_us (PyVal.str "1.5s") = some 1500000 ∧
    cvt_intrvl_str_to_us (PyVal.str "1.5S") = some 1500000 ∧
    cvt_intrvl_str_to_us (PyVal.str "2us") = some 2 ∧
    cvt_intrvl_str_to_us (PyVal.str "2US") = some 2 ∧
    cvt_intrvl_str_to_us (PyVal.str "3m") = some 180000000 ∧
    cvt_intrvl_str_to_us (PyVal.str "4ms") = some 4000 ∧
    cvt_intrvl_str_to_us (PyVal.str "1h") = none ∧
    cvt_intrvl_str_to_us (PyVal.str "1d") = none ∧
    cvt_intrvl_str_to_us (PyVal.str "50s40us") = none ∧
    cvt_intrvl_str_to_us (PyVal.str "") = none ∧
    cvt_intrvl_str_to_us (PyVal.str "100") = none ∧
    cvt_intrvl_str_to_us (PyVal.str "1ss") = some 1000000 ∧
    cvt_intrvl_str_to_us PyVal.other = none :=
  ⟨fun _ => rfl, rfl, rfl, rfl, rfl, rfl, rfl, rfl, rfl, rfl, rfl, rfl,
   rfl, rfl⟩

/-- Witness for C6: integer passthrough at 5. -/
theorem c6_witness : cvt_intrvl_str_to_us (PyVal.int 5) = some 5 :=
  c6_cvt_intrvl_units_and_passthrough.1 5

/-!
### C9 — `prdcr_start` request building (`src/Communicator.py` 482-523)

`prdcr_start(name, regex, reconnect)` picks `PRDCR_START_REGEX`/`REGEX`
when `regex` is true and `PRDCR_START`/`NAME` otherwise, then appends
`INTERVAL` with value `str(reconnect)` when `reconnect` is truthy.  The
reconnect string is passed through `str()` verbatim — the method never
calls the interval converter.  `reconnect : Option String` models the
keyword argument when given a string (as in the claim's `reconnect="2s"`);
Python truthiness makes `None` and `""` skip the attribute, and `str()`
of a string is the identity.
-/

inductive ReqAttrId where
  | NAME
  | INTERVAL
  | REGEX
deriving DecidableEq, Repr

inductive ReqCommandId where
  | PRDCR_START
  | PRDCR_START_REGEX
deriving DecidableEq, Repr

structure LDMSD_Request where
  command_id : ReqCommandId
  attrs : List (ReqAttrId × String)
deriving DecidableEq, Repr

/-- The request built by `Communicator.prdcr_start` (lines 482-523). -/
def Communicator.prdcr_start (name : String) (regex : Bool)
    (reconnect : Option String) : LDMSD_Request :=
  let cmd_id := if regex then ReqCommandId.PRDCR_START_REGEX
                else ReqCommandId.PRDCR_START
  let name_id := if regex then ReqAttrId.REGEX else ReqAttrId.NAME
  let attrs := [(name_id, name)]
  let attrs := match reconnect with
    | some r => if r = "" then attrs else attrs ++ [(ReqAttrId.INTERVAL, r)]
    | none => attrs
  { command_id := cmd_id, attrs := attrs }

/-- C9 counterexample: `prdcr_start("n.*", regex=True, reconnect="2s")`
does build a `PRDCR_START_REGEX` request with `REGEX="n.*"`, but its
INTERVAL attribute carries the raw string `"2s"`, not the microsecond
conversion `"2000000"` the claim states (the conversion the spec expects
would indeed yield 2000000). -/
theorem c9_counterexample_interval_not_converted :
    (Communicator.prdcr_start "n.*" true (some "2s")).command_id
        = ReqCommandId.PRDCR_START_REGEX ∧
    (Communicator.prdcr_start "n.*" true (some "2s")).attrs
        = [(ReqAttrId.REGEX, "n.*"), (ReqAttrId.INTERVAL, "2s")] ∧
    ("2s" : String) ≠ "2000000" ∧
    cvt_intrvl_str_to_us (PyVal.str "2s") = some 2000000 :=
  ⟨rfl, rfl, by decide, rfl⟩

/-- C9 (corrected): with `regex=True` and a truthy reconnect string `r`,
`prdcr_start` builds a `PRDCR_START_REGEX` request carrying
`REGEX = name` and `INTERVAL = str(r)` verbatim — no unit conversion is
applied to the reconnect interval. -/
theorem c9_prdcr_start_regex_request (name r : String) (hr : r ≠ "") :
    Communicator.prdcr_start name true (some r)
      = { command_id := ReqCommandId.PRDCR_START_REGEX,
          attrs := [(ReqAttrId.REGEX, name), (ReqAttrId.INTERVAL, r)] } := by
  unfold Communicator.prdcr_start
  simp [hr]

/-- Witness for C9 at the claim's own arguments. -/
theorem c9_witness :
    Communicator.prdcr_start "n.*" true (some "2s")
      = { command_id := ReqCommandId.PRDCR_START_REGEX,
          attrs := [(ReqAttrId.REGEX, "n.*"),
                    (ReqAttrId.INTERVAL, "2s")] } :=
  c9_prdcr_start_regex_request "n.*" "2s" (by decide)

end Maestro
